import Mathlib

/-! ## my-go-ldap: LDAP command-line utilities

A shallow embedding of the five Go packages of the repository

* `conn`    (`src/conn/conn.go`): settings record and connection provider,
* `adduser` (`src/adduser/add.go`): create a user entry,
* `deluser` (`src/deluser/delete.go`): delete a user entry by lookup,
* `modify`  (`src/modify/modify.go`): password, attribute and group changes,
* `search`  (`src/search/search.go`): user and organisational-unit search,

together with the parts of the Go standard library (`crypto/sha1`,
`encoding/base64`, `fmt`) and of `github.com/go-ldap/ldap/v3` they call.

Go strings are Lean strings, Go byte slices are lists of naturals below 256,
a Go `error` is an `Option String` holding the message (`none` is `nil`),
and a Go `(T, error)` result is an `Except String T`.

The directory server is a `Directory`: for each kind of request a function
from the history of the connection (the list of events so far) and the request
to the response.  Every operation threads the event log explicitly, so the
requests that were issued, their order and the closing of the connection can
be read off the resulting log.
-/

set_option autoImplicit false

/-! ## `crypto/sha1` -/

namespace sha1

/-- Rotation to the left of a 32-bit word (`bits.RotateLeft32`). -/
def rotl (n x : Nat) : Nat := ((x <<< n) ||| (x >>> (32 - n))) % 4294967296

/-- Big-endian 32-bit word out of four bytes. -/
def be32 (b0 b1 b2 b3 : Nat) : Nat := (b0 <<< 24) ||| (b1 <<< 16) ||| (b2 <<< 8) ||| b3

/-- The first `n` big-endian words of a block. -/
def words : Nat → List Nat → List Nat
  | 0, _ => []
  | n + 1, p => be32 (p.getD 0 0) (p.getD 1 0) (p.getD 2 0) (p.getD 3 0) :: words n (p.drop 4)

/-- Message schedule: extends the word list by `n` further words. -/
def schedule : Nat → List Nat → List Nat
  | 0, w => w
  | n + 1, w =>
    let t := w.length
    schedule n
      (w ++ [rotl 1 (w.getD (t - 3) 0 ^^^ w.getD (t - 8) 0 ^^^ w.getD (t - 14) 0 ^^^ w.getD (t - 16) 0)])

/-- The five chaining words `h0 .. h4` of the digest. -/
structure St where
  a : Nat
  b : Nat
  c : Nat
  d : Nat
  e : Nat
deriving DecidableEq, Repr

/-- Round function and round constant of round `i`. -/
def fK (i b c d : Nat) : Nat × Nat :=
  if i < 20 then ((b &&& c) ||| ((b ^^^ 4294967295) &&& d), 0x5A827999)
  else if i < 40 then (b ^^^ c ^^^ d, 0x6ED9EBA1)
  else if i < 60 then (((b ||| c) &&& d) ||| (b &&& c), 0x8F1BBCDC)
  else (b ^^^ c ^^^ d, 0xCA62C1D6)

/-- One of the eighty rounds. -/
def round (s : St) (i wi : Nat) : St :=
  let fk := fK i s.b s.c s.d
  let t := (rotl 5 s.a + fk.1 + s.e + wi + fk.2) % 4294967296
  ⟨t, s.a, rotl 30 s.b, s.c, s.d⟩

/-- All rounds over the scheduled words. -/
def rounds : List Nat → Nat → St → St
  | [], _, s => s
  | wi :: ws, i, s => rounds ws (i + 1) (round s i wi)

/-- Compression of one 64-byte block (`blockGeneric`). -/
def block (h : St) (p : List Nat) : St :=
  let w := schedule 64 (words 16 p)
  let s := rounds w 0 h
  ⟨(h.a + s.a) % 4294967296, (h.b + s.b) % 4294967296, (h.c + s.c) % 4294967296,
   (h.d + s.d) % 4294967296, (h.e + s.e) % 4294967296⟩

/-- Compression of `n` consecutive blocks. -/
def blocks : Nat → St → List Nat → St
  | 0, h, _ => h
  | n + 1, h, p => blocks n (block h p) (p.drop 64)

/-- Initial chaining value. -/
def init : St := ⟨0x67452301, 0xEFCDAB89, 0x98BADCFE, 0x10325476, 0xC3D2E1F0⟩

/-- The `k` low bytes of `x`, most significant first. -/
def beBytes (k : Nat) (x : Nat) : List Nat :=
  (List.range k).map (fun i => (x >>> (8 * (k - 1 - i))) % 256)

/-- Padding of `checkSum`: a `0x80` byte, zeros up to 56 modulo 64, and the
bit length as a 64-bit big-endian number. -/
def pad (m : List Nat) : List Nat :=
  let len := m.length
  let r := len % 64
  let z := if r < 56 then 55 - r else 119 - r
  m ++ [128] ++ List.replicate z 0 ++ beBytes 8 ((len * 8) % 18446744073709551616)

/-- The 20-byte digest of a message (`checkSum`). -/
def checkSum (m : List Nat) : List Nat :=
  let p := pad m
  let h := blocks (p.length / 64) init p
  beBytes 4 h.a ++ beBytes 4 h.b ++ beBytes 4 h.c ++ beBytes 4 h.d ++ beBytes 4 h.e

/-- The running hash `hash.Hash`, as the bytes written to it so far. -/
structure digest where
  written : List Nat
deriving DecidableEq, Repr

/-- The function `sha1.New()`. -/
def New : digest := ⟨[]⟩

/-- The method `Write`: absorbs `p`, returns the number of bytes taken and a
`nil` error (the hash never fails). -/
def digest.Write (d : digest) (p : List Nat) : digest × Nat × Option String :=
  (⟨d.written ++ p⟩, p.length, none)

/-- The method `Sum(b)`: appends the digest of what was written to `b`. -/
def digest.Sum (d : digest) (b : List Nat) : List Nat :=
  b ++ checkSum d.written

end sha1

/-! ## `encoding/base64` -/

namespace base64

/-- The standard alphabet `encodeStd`. -/
def encodeStd : List Char :=
  "ABCDEFGHIJKLMNOPQRSTUVWXYZabcdefghijklmnopqrstuvwxyz0123456789+/".data

/-- The padding character `StdPadding`. -/
def StdPadding : Char := '='

/-- The character of a 6-bit value. -/
def enc (v : Nat) : Char := encodeStd.getD (v &&& 63) 'A'

/-- The method `Encoding.Encode` of `StdEncoding`: three bytes become four
characters, a tail of one or two bytes is padded. -/
def Encode : List Nat → List Char
  | b0 :: b1 :: b2 :: rest =>
    let val := (b0 <<< 16) ||| (b1 <<< 8) ||| b2
    enc (val >>> 18) :: enc (val >>> 12) :: enc (val >>> 6) :: enc val :: Encode rest
  | [b0, b1] =>
    let val := (b0 <<< 16) ||| (b1 <<< 8)
    [enc (val >>> 18), enc (val >>> 12), enc (val >>> 6), StdPadding]
  | [b0] =>
    let val := b0 <<< 16
    [enc (val >>> 18), enc (val >>> 12), StdPadding, StdPadding]
  | [] => []

/-- The method `StdEncoding.EncodeToString`. -/
def EncodeToString (src : List Nat) : String := String.mk (Encode src)

end base64

/-! ## Go strings -/

/-- The conversion `[]byte(s)`: the UTF-8 bytes of a string. -/
def bytesOf (s : String) : List Nat :=
  (s.data.flatMap String.utf8EncodeChar).map UInt8.toNat

/-- The scheme tag of `fmt.Sprintf("{SHA}%s", _)`. -/
def shaTag : String := "\x7bSHA\x7d"

deriving instance DecidableEq for Except

/-! ## `github.com/go-ldap/ldap/v3` -/

namespace ldap

/-- The constant `ldap.ScopeWholeSubtree`. -/
def ScopeWholeSubtree : Nat := 2

/-- The constant `ldap.NeverDerefAliases`. -/
def NeverDerefAliases : Nat := 0

/-- The constant `ldap.AddAttribute`. -/
def AddAttribute : Nat := 0

/-- The constant `ldap.DeleteAttribute`. -/
def DeleteAttribute : Nat := 1

/-- The constant `ldap.ReplaceAttribute`. -/
def ReplaceAttribute : Nat := 2

/-- The type `ldap.SearchRequest` (the controls, always `nil` here, are left out). -/
structure SearchRequest where
  BaseDN : String
  Scope : Nat
  DerefAliases : Nat
  SizeLimit : Nat
  TimeLimit : Nat
  TypesOnly : Bool
  Filter : String
  Attributes : List String
deriving DecidableEq, Repr

/-- The function `ldap.NewSearchRequest` with `nil` controls. -/
def NewSearchRequest (BaseDN : String) (Scope DerefAliases SizeLimit TimeLimit : Nat)
    (TypesOnly : Bool) (Filter : String) (Attributes : List String) : SearchRequest :=
  ⟨BaseDN, Scope, DerefAliases, SizeLimit, TimeLimit, TypesOnly, Filter, Attributes⟩

/-- The type `ldap.EntryAttribute`. -/
structure EntryAttribute where
  Name : String
  Values : List String
deriving DecidableEq, Repr

/-- The type `ldap.Entry`. -/
structure Entry where
  DN : String
  Attributes : List EntryAttribute
deriving DecidableEq, Repr

/-- The method `Entry.GetAttributeValues`: the values of the first attribute
with exactly that name, the empty list when there is none. -/
def Entry.GetAttributeValues (e : Entry) (name : String) : List String :=
  match e.Attributes.find? (fun attr => attr.Name == name) with
  | some attr => attr.Values
  | none => []

/-- The method `Entry.GetAttributeValue`: the first value, or the empty string. -/
def Entry.GetAttributeValue (e : Entry) (name : String) : String :=
  match e.GetAttributeValues name with
  | [] => ""
  | v :: _ => v

/-- The type `ldap.SearchResult`. -/
structure SearchResult where
  Entries : List Entry
deriving DecidableEq, Repr

/-- The type `ldap.Attribute` of an add request (`Type` and `Vals` in Go). -/
structure Attribute where
  attrType : String
  attrVals : List String
deriving DecidableEq, Repr

/-- The type `ldap.AddRequest`. -/
structure AddRequest where
  DN : String
  Attributes : List Attribute
deriving DecidableEq, Repr

/-- The function `ldap.NewAddRequest` with `nil` controls. -/
def NewAddRequest (dn : String) : AddRequest := ⟨dn, []⟩

/-- The method `AddRequest.Attribute`: appends one attribute. -/
def AddRequest.Attribute (req : AddRequest) (attrType : String) (attrVals : List String) :
    AddRequest :=
  ⟨req.DN, req.Attributes ++ [⟨attrType, attrVals⟩]⟩

/-- The type `ldap.Change`: an operation code and the attribute it applies to. -/
structure Change where
  Operation : Nat
  attrType : String
  attrVals : List String
deriving DecidableEq, Repr

/-- The type `ldap.ModifyRequest`. -/
structure ModifyRequest where
  DN : String
  Changes : List Change
deriving DecidableEq, Repr

/-- The function `ldap.NewModifyRequest` with `nil` controls. -/
def NewModifyRequest (dn : String) : ModifyRequest := ⟨dn, []⟩

/-- The method `ModifyRequest.Add`. -/
def ModifyRequest.Add (req : ModifyRequest) (attrType : String) (attrVals : List String) :
    ModifyRequest :=
  ⟨req.DN, req.Changes ++ [⟨AddAttribute, attrType, attrVals⟩]⟩

/-- The method `ModifyRequest.Delete`. -/
def ModifyRequest.Delete (req : ModifyRequest) (attrType : String) (attrVals : List String) :
    ModifyRequest :=
  ⟨req.DN, req.Changes ++ [⟨DeleteAttribute, attrType, attrVals⟩]⟩

/-- The method `ModifyRequest.Replace`. -/
def ModifyRequest.Replace (req : ModifyRequest) (attrType : String) (attrVals : List String) :
    ModifyRequest :=
  ⟨req.DN, req.Changes ++ [⟨ReplaceAttribute, attrType, attrVals⟩]⟩

/-- The type `ldap.DelRequest`. -/
structure DelRequest where
  DN : String
deriving DecidableEq, Repr

/-- The function `ldap.NewDelRequest` with `nil` controls. -/
def NewDelRequest (dn : String) : DelRequest := ⟨dn⟩

/-- What happens on the wire, in order: one event per library call. -/
inductive Event where
  | DialURL (addr : String)
  | Bind (username password : String)
  | Search (req : SearchRequest)
  | Add (req : AddRequest)
  | Modify (req : ModifyRequest)
  | Del (req : DelRequest)
  | Close
deriving DecidableEq, Repr

/-- The event log of one process. -/
abbrev Log := List Event

/-- The behaviour of the directory server: the response to each call, given
the events that came before it. -/
structure Directory where
  dial : Log → String → Option String
  bind : Log → String → String → Option String
  search : Log → SearchRequest → Except String SearchResult
  add : Log → AddRequest → Option String
  modify : Log → ModifyRequest → Option String
  del : Log → DelRequest → Option String

/-- The function `ldap.DialURL`. -/
def DialURL (dir : Directory) (log : Log) (addr : String) : Log × Option String :=
  (log ++ [Event.DialURL addr], dir.dial log addr)

/-- The method `Conn.Bind`. -/
def Bind (dir : Directory) (log : Log) (username password : String) : Log × Option String :=
  (log ++ [Event.Bind username password], dir.bind log username password)

/-- The method `Conn.Search`. -/
def Search (dir : Directory) (log : Log) (req : SearchRequest) :
    Log × Except String SearchResult :=
  (log ++ [Event.Search req], dir.search log req)

/-- The method `Conn.Add`. -/
def Add (dir : Directory) (log : Log) (req : AddRequest) : Log × Option String :=
  (log ++ [Event.Add req], dir.add log req)

/-- The method `Conn.Modify`. -/
def Modify (dir : Directory) (log : Log) (req : ModifyRequest) : Log × Option String :=
  (log ++ [Event.Modify req], dir.modify log req)

/-- The method `Conn.Del`. -/
def Del (dir : Directory) (log : Log) (req : DelRequest) : Log × Option String :=
  (log ++ [Event.Del req], dir.del log req)

/-- The method `Conn.Close`. -/
def Close (log : Log) : Log := log ++ [Event.Close]

/-- A search, add, modify or delete request: a directory round-trip after the bind. -/
def Event.isRequest : Event → Bool
  | Event.Search _ => true
  | Event.Add _ => true
  | Event.Modify _ => true
  | Event.Del _ => true
  | _ => false

/-- A request that changes the directory. -/
def Event.isMutation : Event → Bool
  | Event.Add _ => true
  | Event.Modify _ => true
  | Event.Del _ => true
  | _ => false

/-- Number of directory round-trips in a log. -/
def requests (log : Log) : Nat := log.countP Event.isRequest

end ldap

/-- The statement `defer conn.Close()`: the connection is closed when the
function body has produced its result. -/
def deferClose {α : Type} (r : ldap.Log × α) : ldap.Log × α := (ldap.Close r.1, r.2)

/-! ## Package `conn` -/

namespace conn

/-- The settings record `Config`. -/
structure Config where
  LDAPBaseDN : String
  AdminDN : String
  AdminPass : String
  LDAPURL : String
  UserOU : String
  GroupOU : String
  DomainMail : String
deriving DecidableEq, Repr

/-- The function `GetLDAPConnection`: dial, then bind as the administrator. -/
def GetLDAPConnection (dir : ldap.Directory) (log : ldap.Log) (config : Config) :
    ldap.Log × Except String Unit :=
  match ldap.DialURL dir log config.LDAPURL with
  | (log, some err) => (log, .error ("连接失败: " ++ err))
  | (log, none) =>
    match ldap.Bind dir log config.AdminDN config.AdminPass with
    | (log, some err) => (log, .error ("认证失败: " ++ err))
    | (log, none) => (log, .ok ())

end conn

/-! ## Package `adduser` (`src/adduser/add.go`) -/

namespace adduser

/-- The struct `User`. -/
structure User where
  Username : String
  Password : String
  SN : String
  CN : String
  Email : String
deriving DecidableEq, Repr

/-- The function `hashPasswordSHA` of `add.go`. -/
def hashPasswordSHA (password : String) : Except String String :=
  let hash := sha1.New
  match hash.Write (bytesOf password) with
  | (_, _, some err) => .error err
  | (hash, _, none) =>
    let hashedPassword := hash.Sum []
    let encodedPassword := base64.EncodeToString hashedPassword
    .ok (shaTag ++ encodedPassword)

/-- The map literal `Attributes` of `addUser`, keys in the order they are written. -/
def Attributes (user : User) (hashedPassword : String) : List (String × List String) :=
  [("objectClass", ["inetOrgPerson", "person", "organizationalPerson", "top"]),
   ("userPassword", [hashedPassword]),
   ("sn", [user.SN]),
   ("cn", [user.CN]),
   ("uid", [user.Username]),
   ("mail", [user.Email]),
   ("displayname", [user.SN]),
   ("givenname", [user.SN])]

/-- The method `User.addUser`.  Go leaves the iteration order of `range` over a
map open; `mapRange` is the order the runtime picks. -/
def User.addUser (dir : ldap.Directory)
    (mapRange : List (String × List String) → List (String × List String))
    (user : User) (config : conn.Config) (userOU baseDN : String) : ldap.Log × Option String :=
  let userDN := "uid=" ++ user.Username ++ "," ++ userOU ++ "," ++ baseDN
  match conn.GetLDAPConnection dir [] config with
  | (log, .error err) => (log, some ("连接 LDAP 时出错: " ++ err))
  | (log, .ok _) =>
    deferClose (
      match hashPasswordSHA user.Password with
      | .error err => (log, some ("哈希密码失败: " ++ err))
      | .ok hashedPassword =>
        let addRequest := ldap.NewAddRequest userDN
        let addRequest := (mapRange (Attributes user hashedPassword)).foldl
          (fun req kv => req.Attribute kv.1 kv.2) addRequest
        match ldap.Add dir log addRequest with
        | (log, some err) => (log, some ("添加用户失败: " ++ err))
        | (log, none) => (log, none))

/-- The function `main` of the add-user program: `loaded` is the result of
`conn.LoadConfig("config.json")`, `Args` is `os.Args`.  The result is the event
log, what was printed, and the message of `log.Fatalf` when the process died. -/
def main (dir : ldap.Directory)
    (mapRange : List (String × List String) → List (String × List String))
    (loaded : Except String conn.Config) (Args : List String) :
    ldap.Log × List String × Option String :=
  match loaded with
  | .error err => ([], [], some ("加载配置时出错: " ++ err))
  | .ok config =>
    match Args with
    | [_, a1, a2, a3] =>
      let user : User := ⟨a1, a2, a3, a1, a1 ++ "@" ++ config.DomainMail⟩
      match user.addUser dir mapRange config config.UserOU config.LDAPBaseDN with
      | (log, some err) => (log, [], some ("添加用户时出错: " ++ err))
      | (log, none) => (log, ["用户添加成功\n"], none)
    | _ => ([], [], some ("Usage: " ++ Args.getD 0 "" ++ " <username> <password> <用户名>"))

end adduser

/-! ## Package `deluser` (`src/deluser/delete.go`) -/

namespace deluser

/-- The function `deleteUser`. -/
def deleteUser (dir : ldap.Directory) (config : conn.Config) (username : String) :
    ldap.Log × Option String :=
  match conn.GetLDAPConnection dir [] config with
  | (log, .error err) => (log, some ("连接 LDAP 时出错: " ++ err))
  | (log, .ok _) =>
    deferClose (
      let searchRequest := ldap.NewSearchRequest config.LDAPBaseDN
        ldap.ScopeWholeSubtree ldap.NeverDerefAliases 0 0 false
        ("(uid=" ++ username ++ ")") ["dn"]
      match ldap.Search dir log searchRequest with
      | (log, .error err) => (log, some ("搜索用户失败: " ++ err))
      | (log, .ok sr) =>
        match sr.Entries with
        | [] => (log, some "未找到用户")
        | entry0 :: _ =>
          let userDN := entry0.DN
          let delRequest := ldap.NewDelRequest userDN
          match ldap.Del dir log delRequest with
          | (log, some err) => (log, some ("删除用户失败: " ++ err))
          | (log, none) => (log, none))

end deluser

/-! ## Package `modify` (`src/modify/modify.go`) -/

namespace modify

/-- The interface `UserDNFetcher`: the method gets the connection (the
directory and the log so far) and the username, and returns the log it leaves
behind together with the DN or an error. -/
structure UserDNFetcher where
  FetchUserDN : ldap.Directory → ldap.Log → String → ldap.Log × Except String String

/-- The struct `LDAPUserDNFetcher`. -/
structure LDAPUserDNFetcher where
  Config : conn.Config

/-- The method `LDAPUserDNFetcher.FetchUserDN`. -/
def LDAPUserDNFetcher.FetchUserDN (f : LDAPUserDNFetcher) (dir : ldap.Directory)
    (log : ldap.Log) (username : String) : ldap.Log × Except String String :=
  let searchRequest := ldap.NewSearchRequest f.Config.LDAPBaseDN
    ldap.ScopeWholeSubtree ldap.NeverDerefAliases 0 0 false
    ("(uid=" ++ username ++ ")") ["dn"]
  match ldap.Search dir log searchRequest with
  | (log, .error err) => (log, .error ("搜索用户失败: " ++ err))
  | (log, .ok sr) =>
    match sr.Entries with
    | [] => (log, .error "未找到用户")
    | entry0 :: _ => (log, .ok entry0.DN)

/-- The struct `LDAPUserDNFetcher` seen through the interface. -/
def LDAPUserDNFetcher.toUserDNFetcher (f : LDAPUserDNFetcher) : UserDNFetcher :=
  ⟨f.FetchUserDN⟩

/-- The function `hashPasswordSHA` of `modify.go`. -/
def hashPasswordSHA (password : String) : Except String String :=
  let hash := sha1.New
  match hash.Write (bytesOf password) with
  | (_, _, some err) => .error err
  | (hash, _, none) =>
    let hashedPassword := hash.Sum []
    let encodedPassword := base64.EncodeToString hashedPassword
    .ok (shaTag ++ encodedPassword)

/-- The function `ModifyUserPassword`. -/
def ModifyUserPassword (dir : ldap.Directory) (f : UserDNFetcher) (config : conn.Config)
    (username newPassword : String) : ldap.Log × Option String :=
  match conn.GetLDAPConnection dir [] config with
  | (log, .error err) => (log, some ("连接 LDAP 时出错: " ++ err))
  | (log, .ok _) =>
    deferClose (
      match f.FetchUserDN dir log username with
      | (log, .error err) => (log, some ("获取用户 DN 失败: " ++ err))
      | (log, .ok userDN) =>
        match hashPasswordSHA newPassword with
        | .error err => (log, some ("哈希密码失败: " ++ err))
        | .ok hashedPassword =>
          let modifyRequest := ldap.NewModifyRequest userDN
          let modifyRequest := modifyRequest.Replace "userPassword" [hashedPassword]
          match ldap.Modify dir log modifyRequest with
          | (log, some err) => (log, some ("修改用户密码失败: " ++ err))
          | (log, none) => (log, none))

/-- The loop `for i := range values` of `AddUserattrName`, which overwrites
every element of the slice in place. -/
def titleLoop (config : conn.Config) (values : List String) : List String :=
  (List.range values.length).foldl
    (fun vs i => vs.set i
      ("cn=" ++ vs.getD i "" ++ "," ++ config.GroupOU ++ "," ++ config.LDAPBaseDN))
    values

/-- The function `AddUserattrName`. -/
def AddUserattrName (dir : ldap.Directory) (f : UserDNFetcher) (config : conn.Config)
    (username attrName : String) (values : List String) : ldap.Log × Option String :=
  match conn.GetLDAPConnection dir [] config with
  | (log, .error err) => (log, some ("连接 LDAP 时出错: " ++ err))
  | (log, .ok _) =>
    deferClose (
      match f.FetchUserDN dir log username with
      | (log, .error err) => (log, some ("获取用户 DN 失败: " ++ err))
      | (log, .ok userDN) =>
        let modifyRequest := ldap.NewModifyRequest userDN
        let modifyRequest :=
          if values.length > 0 then
            let values := if attrName = "title" then titleLoop config values else values
            modifyRequest.Add attrName values
          else modifyRequest
        match ldap.Modify dir log modifyRequest with
        | (log, some err) => (log, some ("修改用户失败: " ++ err))
        | (log, none) => (log, none))

/-- The loop `for _, group := range groups` of `AddUserToGroups`: one modify
request per group, left at the first one that fails. -/
def addToGroupsLoop (dir : ldap.Directory) (config : conn.Config) (userDN : String) :
    List String → ldap.Log → ldap.Log × Option String
  | [], log => (log, none)
  | group :: rest, log =>
    let groupDN := "cn=" ++ group ++ "," ++ config.GroupOU ++ "," ++ config.LDAPBaseDN
    let modifyRequest := ldap.NewModifyRequest groupDN
    let modifyRequest := modifyRequest.Add "member" [userDN]
    match ldap.Modify dir log modifyRequest with
    | (log, some err) => (log, some ("无法将用户添加到组中 " ++ group ++ ": " ++ err))
    | (log, none) => addToGroupsLoop dir config userDN rest log

/-- The function `AddUserToGroups`. -/
def AddUserToGroups (dir : ldap.Directory) (f : UserDNFetcher) (config : conn.Config)
    (username : String) (groups : List String) : ldap.Log × Option String :=
  match conn.GetLDAPConnection dir [] config with
  | (log, .error err) => (log, some ("连接 LDAP 时出错: " ++ err))
  | (log, .ok _) =>
    deferClose (
      match f.FetchUserDN dir log username with
      | (log, .error err) => (log, some ("获取用户 DN 失败: " ++ err))
      | (log, .ok userDN) => addToGroupsLoop dir config userDN groups log)

/-- The loop `for _, member := range members` of `delUserFromGroups`: the
final value of `userInGroup`. -/
def userInGroupLoop (userDN : String) : List String → Bool
  | [] => false
  | member :: rest => if member = userDN then true else userInGroupLoop userDN rest

/-- The function `delUserFromGroups`. -/
def delUserFromGroups (dir : ldap.Directory) (config : conn.Config)
    (username groupName : String) : ldap.Log × Option String :=
  match conn.GetLDAPConnection dir [] config with
  | (log, .error err) => (log, some ("连接 LDAP 时出错: " ++ err))
  | (log, .ok _) =>
    deferClose (
      let searchRequest := ldap.NewSearchRequest config.LDAPBaseDN
        ldap.ScopeWholeSubtree ldap.NeverDerefAliases 0 0 false
        ("(&(objectClass=inetOrgPerson)(uid=" ++ username ++ "))") ["dn"]
      match ldap.Search dir log searchRequest with
      | (log, .error err) => (log, some ("搜索用户失败: " ++ err))
      | (log, .ok sr) =>
        match sr.Entries with
        | [] => (log, some "未找到用户")
        | entry0 :: _ =>
          let userDN := entry0.DN
          let OUbase := config.GroupOU ++ "," ++ config.LDAPBaseDN
          let groupSearchRequest := ldap.NewSearchRequest OUbase
            ldap.ScopeWholeSubtree ldap.NeverDerefAliases 0 0 false
            ("(&(objectClass=groupOfNames)(cn=" ++ groupName ++ "))") ["dn", "member"]
          match ldap.Search dir log groupSearchRequest with
          | (log, .error err) => (log, some ("搜索OU失败: " ++ err))
          | (log, .ok groupSearchResult) =>
            match groupSearchResult.Entries with
            | [] => (log, some ("OU '" ++ groupName ++ "' 未找到"))
            | group0 :: _ =>
              let groupDN := group0.DN
              let members := group0.GetAttributeValues "member"
              let userInGroup := userInGroupLoop userDN members
              if !userInGroup then
                (log, some ("用户 '" ++ username ++ "' 不在 '" ++ groupName ++ "' 组中"))
              else
                let modifyRequest := ldap.NewModifyRequest groupDN
                let modifyRequest := modifyRequest.Delete "member" [userDN]
                match ldap.Modify dir log modifyRequest with
                | (log, some err) => (log, some ("移除用户失败: " ++ err))
                | (log, none) => (log, none))

end modify

/-! ## Package `search` (`src/search/search.go`) -/

namespace search

/-- The function `searchUser`: the event log, the strings printed, the error. -/
def searchUser (dir : ldap.Directory) (config : conn.Config) (username : String) :
    ldap.Log × List String × Option String :=
  match conn.GetLDAPConnection dir [] config with
  | (log, .error err) => (log, [], some ("连接 LDAP 时出错: " ++ err))
  | (log, .ok _) =>
    deferClose (
      let searchRequest := ldap.NewSearchRequest config.LDAPBaseDN
        ldap.ScopeWholeSubtree ldap.NeverDerefAliases 0 0 false
        ("(uid=" ++ username ++ ")") ["dn", "cn", "displayName", "mail", "title"]
      match ldap.Search dir log searchRequest with
      | (log, .error err) => (log, [], some ("搜索用户失败: " ++ err))
      | (log, .ok sr) =>
        match sr.Entries with
        | [] => (log, [], some "未找到用户")
        | entry :: _ =>
          let titles := entry.GetAttributeValues "title"
          let out :=
            ["DN: " ++ entry.DN ++ "\n",
             "CN: " ++ entry.GetAttributeValue "cn" ++ "\n",
             "DisPlayName: " ++ entry.GetAttributeValue "displayName" ++ "\n",
             "Email: " ++ entry.GetAttributeValue "mail" ++ "\n",
             "Titles:\n"]
          let out := titles.foldl (fun out title => out ++ ["  - " ++ title ++ "\n"]) out
          (log, out, none))

/-- The body of the loop `for _, entry := range sr.Entries` of `searchOU`:
what one entry adds to the output. -/
def printEntry (ouname : String) (out : List String) (entry : ldap.Entry) : List String :=
  if ouname = "" then
    out ++ ["OU: " ++ entry.GetAttributeValue "cn" ++ "\n"]
  else
    let out := out ++ ["Group: " ++ entry.GetAttributeValue "cn" ++ "\n"]
    let members := entry.GetAttributeValues "member"
    members.foldl (fun out member => out ++ ["  Member: " ++ member ++ "\n"]) out

/-- The function `searchOU`: the event log, the strings printed, the error. -/
def searchOU (dir : ldap.Directory) (config : conn.Config) (ouname : String) :
    ldap.Log × List String × Option String :=
  match conn.GetLDAPConnection dir [] config with
  | (log, .error err) => (log, [], some ("连接 LDAP 时出错: " ++ err))
  | (log, .ok _) =>
    deferClose (
      let searchRequest :=
        if ouname = "" then
          ldap.NewSearchRequest config.LDAPBaseDN
            ldap.ScopeWholeSubtree ldap.NeverDerefAliases 0 0 false
            "(objectClass=groupOfNames)" ["cn"]
        else
          let OUbase := config.GroupOU ++ "," ++ config.LDAPBaseDN
          ldap.NewSearchRequest OUbase
            ldap.ScopeWholeSubtree ldap.NeverDerefAliases 0 0 false
            ("(&(objectClass=groupOfNames)(cn=" ++ ouname ++ "))") ["cn", "member"]
      match ldap.Search dir log searchRequest with
      | (log, .error err) => (log, [], some ("搜索OU失败: " ++ err))
      | (log, .ok sr) =>
        if sr.Entries.length = 0 then
          (log, [], some ("OU '" ++ ouname ++ "' 未找到"))
        else
          (log, sr.Entries.foldl (printEntry ouname) [], none))

end search

/-! ## Sample settings and directories -/

namespace sample

/-- A settings record. -/
def config : conn.Config :=
  ⟨"dc=example,dc=com", "cn=admin,dc=example,dc=com", "secret",
   "ldap://localhost:389", "ou=people", "ou=groups", "example.com"⟩

/-- A directory that accepts the dial and the bind, answers a search that asks
for the user attributes with `users` and any other search with `groups`, and
rejects exactly the modify requests on a DN listed in `failing`. -/
def directory (users groups : List ldap.Entry) (failing : List String) : ldap.Directory where
  dial := fun _ _ => none
  bind := fun _ _ _ => none
  search := fun _ req =>
    if req.Attributes = ["dn"] ∨ req.Attributes = ["dn", "cn", "displayName", "mail", "title"]
    then .ok ⟨users⟩ else .ok ⟨groups⟩
  add := fun _ _ => none
  modify := fun _ req => if req.DN ∈ failing then some "No Such Object" else none
  del := fun _ _ => none

/-- A directory that accepts the dial and rejects the bind. -/
def rejectBind : ldap.Directory where
  dial := fun _ _ => none
  bind := fun _ _ _ => some "Invalid Credentials"
  search := fun _ _ => .ok ⟨[]⟩
  add := fun _ _ => none
  modify := fun _ _ => none
  del := fun _ _ => none

/-- The entry of user `alice`. -/
def alice : ldap.Entry :=
  ⟨"uid=alice,ou=people,dc=example,dc=com",
   [⟨"cn", ["alice"]⟩, ⟨"mail", ["alice@example.com"]⟩]⟩

/-- A second entry with the same `uid`, in another subtree. -/
def alice2 : ldap.Entry := ⟨"uid=alice,ou=former,dc=example,dc=com", []⟩

/-- The group `dev`, with `alice` among its members. -/
def dev : ldap.Entry :=
  ⟨"cn=dev,ou=groups,dc=example,dc=com",
   [⟨"cn", ["dev"]⟩,
    ⟨"member", ["uid=bob,ou=people,dc=example,dc=com", "uid=alice,ou=people,dc=example,dc=com"]⟩]⟩

/-- The group `ops`, without `alice`. -/
def ops : ldap.Entry :=
  ⟨"cn=ops,ou=groups,dc=example,dc=com",
   [⟨"cn", ["ops"]⟩, ⟨"member", ["uid=bob,ou=people,dc=example,dc=com"]⟩]⟩

/-- A fetcher that looks nothing up: a stub as a test would inject it. -/
def stubFetcher (dn : String) : modify.UserDNFetcher := ⟨fun _ log _ => (log, .ok dn)⟩

end sample

/-! ## Vocabulary of the statements -/

/-- The events of a successful `GetLDAPConnection`. -/
def conn.boundLog (config : conn.Config) : ldap.Log :=
  [ldap.Event.DialURL config.LDAPURL, ldap.Event.Bind config.AdminDN config.AdminPass]

/-- The user search of `delUserFromGroups`. -/
def modify.personSearch (config : conn.Config) (username : String) : ldap.SearchRequest :=
  ⟨config.LDAPBaseDN, ldap.ScopeWholeSubtree, ldap.NeverDerefAliases, 0, 0, false,
    "(&(objectClass=inetOrgPerson)(uid=" ++ username ++ "))", ["dn"]⟩

/-- The group search of `delUserFromGroups`. -/
def modify.groupSearch (config : conn.Config) (groupName : String) : ldap.SearchRequest :=
  ⟨config.GroupOU ++ "," ++ config.LDAPBaseDN, ldap.ScopeWholeSubtree, ldap.NeverDerefAliases,
    0, 0, false, "(&(objectClass=groupOfNames)(cn=" ++ groupName ++ "))", ["dn", "member"]⟩

/-- The message of the error "user not in group". -/
def modify.notInGroup (username groupName : String) : String :=
  "用户 '" ++ username ++ "' 不在 '" ++ groupName ++ "' 组中"

/-- The modify request of `AddUserToGroups` for one group: add the user DN to
`member` of `cn=<group>,<GroupOU>,<LDAPBaseDN>`. -/
def modify.memberAdd (config : conn.Config) (userDN group : String) : ldap.ModifyRequest :=
  ⟨"cn=" ++ group ++ "," ++ config.GroupOU ++ "," ++ config.LDAPBaseDN,
    [⟨ldap.AddAttribute, "member", [userDN]⟩]⟩

/-- The modify events for a list of groups, in list order. -/
def modify.memberAdds (config : conn.Config) (userDN : String) (groups : List String) :
    ldap.Log :=
  groups.map (fun g => ldap.Event.Modify (modify.memberAdd config userDN g))

/-- The attributes the add-user program sets, as `ldap.Attribute` values. -/
def adduser.expectedAttributes (config : conn.Config) (username surname h : String) :
    List ldap.Attribute :=
  [⟨"objectClass", ["inetOrgPerson", "person", "organizationalPerson", "top"]⟩,
   ⟨"userPassword", [h]⟩,
   ⟨"sn", [surname]⟩,
   ⟨"cn", [username]⟩,
   ⟨"uid", [username]⟩,
   ⟨"mail", [username ++ "@" ++ config.DomainMail]⟩,
   ⟨"displayname", [surname]⟩,
   ⟨"givenname", [surname]⟩]

theorem sha1_beBytes_length (k x : Nat) : (sha1.beBytes k x).length = k := by
  simp [sha1.beBytes]

theorem sha1_checkSum_length (m : List Nat) : (sha1.checkSum m).length = 20 := by
  simp [sha1.checkSum, sha1_beBytes_length]

theorem sha1_beBytes_lt (k x b : Nat) (hb : b ∈ sha1.beBytes k x) : b < 256 := by
  simp only [sha1.beBytes, List.mem_map] at hb
  obtain ⟨i, _, rfl⟩ := hb
  exact Nat.mod_lt _ (by decide)

theorem sha1_checkSum_lt (m : List Nat) (b : Nat) (hb : b ∈ sha1.checkSum m) : b < 256 := by
  simp only [sha1.checkSum, List.mem_append] at hb
  rcases hb with (((h | h) | h) | h) | h <;> exact sha1_beBytes_lt _ _ _ h

theorem base64_Encode_length (l : List Nat) :
    (base64.Encode l).length = 4 * ((l.length + 2) / 3) := by
  induction l using base64.Encode.induct with
  | case1 b0 b1 b2 rest ih => simp [base64.Encode, ih]; omega
  | case2 b0 b1 => simp [base64.Encode]
  | case3 b0 => simp [base64.Encode]
  | case4 => simp [base64.Encode]

theorem adduser_hash_eq (p : String) :
    adduser.hashPasswordSHA p
      = .ok (shaTag ++ base64.EncodeToString (sha1.checkSum (bytesOf p))) := by
  unfold adduser.hashPasswordSHA
  dsimp only [sha1.New, sha1.digest.Write, sha1.digest.Sum]
  rw [List.nil_append, List.nil_append]

theorem modify_hash_eq (p : String) :
    modify.hashPasswordSHA p
      = .ok (shaTag ++ base64.EncodeToString (sha1.checkSum (bytesOf p))) := by
  unfold modify.hashPasswordSHA
  dsimp only [sha1.New, sha1.digest.Write, sha1.digest.Sum]
  rw [List.nil_append, List.nil_append]

/-! ## C1: password hashing -/

set_option maxRecDepth 100000 in
/-- C1: for every password `p`, `hashPasswordSHA p` of the add-user program and
of the modify program both succeed and return the tag `{SHA}` followed by the
padded base64 encoding (28 characters) of the SHA-1 digest (20 bytes, each
below 256) of the UTF-8 bytes of `p`; the result therefore starts with the tag
and depends on `p` alone, and `"password"` gives
`{SHA}W6ph5Mm5Pz8GgiULbPgzG37mj9g=`. -/
theorem C1_hashPasswordSHA (p : String) :
    adduser.hashPasswordSHA p
        = .ok ("\x7bSHA\x7d" ++ base64.EncodeToString (sha1.checkSum (bytesOf p)))
      ∧ modify.hashPasswordSHA p
        = .ok ("\x7bSHA\x7d" ++ base64.EncodeToString (sha1.checkSum (bytesOf p)))
      ∧ bytesOf p = p.toUTF8.data.toList.map UInt8.toNat
      ∧ (sha1.checkSum (bytesOf p)).length = 20
      ∧ (∀ b ∈ sha1.checkSum (bytesOf p), b < 256)
      ∧ (base64.EncodeToString (sha1.checkSum (bytesOf p))).length = 28
      ∧ (∀ q : String, q = p → adduser.hashPasswordSHA q = adduser.hashPasswordSHA p
          ∧ modify.hashPasswordSHA q = modify.hashPasswordSHA p)
      ∧ adduser.hashPasswordSHA "password" = .ok "\x7bSHA\x7dW6ph5Mm5Pz8GgiULbPgzG37mj9g="
      ∧ modify.hashPasswordSHA "password" = .ok "\x7bSHA\x7dW6ph5Mm5Pz8GgiULbPgzG37mj9g=" := by
  refine ⟨adduser_hash_eq p, modify_hash_eq p, rfl, sha1_checkSum_length _,
    sha1_checkSum_lt _, ?_, ?_, by decide, by decide⟩
  · simp [base64.EncodeToString, String.length, base64_Encode_length, sha1_checkSum_length]
  · rintro q rfl
    exact ⟨rfl, rfl⟩

/-! ## Lemmas on error messages -/

theorem data_head_append (a t : String) (c : Char) (h : a.data.head? = some c) :
    (a ++ t).data.head? = some c := by
  rw [String.data_append]
  cases hd : a.data with
  | nil => rw [hd] at h; simp at h
  | cons x xs => rw [hd] at h; simpa using h

theorem ne_of_head_ne (s t : String) (c d : Char) (hs : s.data.head? = some c)
    (ht : t.data.head? = some d) (hcd : c ≠ d) : s ≠ t := by
  intro h
  rw [h, ht] at hs
  exact hcd (Option.some.inj hs).symm

/-! ## The log of a connection that was opened and bound -/

theorem GetLDAPConnection_ok (dir : ldap.Directory) (config : conn.Config)
    (hdial : dir.dial [] config.LDAPURL = none)
    (hbind : dir.bind [ldap.Event.DialURL config.LDAPURL] config.AdminDN config.AdminPass = none) :
    conn.GetLDAPConnection dir [] config = (conn.boundLog config, .ok ()) := by
  simp [conn.GetLDAPConnection, ldap.DialURL, ldap.Bind, hdial, hbind, conn.boundLog]

theorem GetLDAPConnection_bind_error (dir : ldap.Directory) (config : conn.Config) (e : String)
    (hdial : dir.dial [] config.LDAPURL = none)
    (hbind : dir.bind [ldap.Event.DialURL config.LDAPURL] config.AdminDN config.AdminPass
      = some e) :
    conn.GetLDAPConnection dir [] config
      = (conn.boundLog config, .error ("认证失败: " ++ e)) := by
  simp [conn.GetLDAPConnection, ldap.DialURL, ldap.Bind, hdial, hbind, conn.boundLog]

/-! ## C4: lookup by username takes the first match -/

/-- C4: when the search for `(uid=<username>)` over the whole subtree of the
base DN succeeds with `entries`, `FetchUserDN` and `deleteUser` return the
not-found error exactly when `entries` is empty; otherwise `FetchUserDN`
returns the DN of the first entry and `deleteUser` issues exactly one delete
request, for the DN of the first entry, whatever entries follow; in the
not-found case `deleteUser` issues the search only. -/
theorem C4_first_match_wins (dir : ldap.Directory) (config : conn.Config) (username : String)
    (log : ldap.Log) (entries : List ldap.Entry)
    (hdial : dir.dial [] config.LDAPURL = none)
    (hbind : dir.bind [ldap.Event.DialURL config.LDAPURL] config.AdminDN config.AdminPass = none)
    (hdel : dir.search (conn.boundLog config)
      ⟨config.LDAPBaseDN, ldap.ScopeWholeSubtree, ldap.NeverDerefAliases, 0, 0, false,
        "(uid=" ++ username ++ ")", ["dn"]⟩ = .ok ⟨entries⟩)
    (hfetch : dir.search log
      ⟨config.LDAPBaseDN, ldap.ScopeWholeSubtree, ldap.NeverDerefAliases, 0, 0, false,
        "(uid=" ++ username ++ ")", ["dn"]⟩ = .ok ⟨entries⟩) :
    ((modify.LDAPUserDNFetcher.FetchUserDN ⟨config⟩ dir log username).2
        = .error "未找到用户" ↔ entries = [])
    ∧ ((deluser.deleteUser dir config username).2 = some "未找到用户" ↔ entries = [])
    ∧ (entries = [] →
        deluser.deleteUser dir config username
          = (conn.boundLog config ++
              [ldap.Event.Search ⟨config.LDAPBaseDN, ldap.ScopeWholeSubtree,
                ldap.NeverDerefAliases, 0, 0, false, "(uid=" ++ username ++ ")", ["dn"]⟩,
               ldap.Event.Close], some "未找到用户"))
    ∧ (∀ first rest, entries = first :: rest →
        modify.LDAPUserDNFetcher.FetchUserDN ⟨config⟩ dir log username
          = (log ++ [ldap.Event.Search ⟨config.LDAPBaseDN, ldap.ScopeWholeSubtree,
              ldap.NeverDerefAliases, 0, 0, false, "(uid=" ++ username ++ ")", ["dn"]⟩],
             .ok first.DN)
        ∧ (deluser.deleteUser dir config username).1
          = conn.boundLog config ++
              [ldap.Event.Search ⟨config.LDAPBaseDN, ldap.ScopeWholeSubtree,
                ldap.NeverDerefAliases, 0, 0, false, "(uid=" ++ username ++ ")", ["dn"]⟩,
               ldap.Event.Del ⟨first.DN⟩,
               ldap.Event.Close]) := by
  have hconn := GetLDAPConnection_ok dir config hdial hbind
  cases entries with
  | nil =>
    simp [modify.LDAPUserDNFetcher.FetchUserDN, deluser.deleteUser, hconn, deferClose,
      ldap.Search, ldap.NewSearchRequest, ldap.Close, hdel, hfetch]
  | cons first rest =>
    have hne : ∀ e : String, "删除用户失败: " ++ e ≠ "未找到用户" := fun e =>
      ne_of_head_ne _ _ '删' '未' (data_head_append _ _ _ (by decide)) (by decide) (by decide)
    simp only [modify.LDAPUserDNFetcher.FetchUserDN, deluser.deleteUser, hconn, deferClose,
      ldap.Search, ldap.NewSearchRequest, ldap.Close, hdel, hfetch, ldap.Del, ldap.NewDelRequest]
    refine ⟨by simp, ?_, by simp, ?_⟩
    · cases hd : dir.del (conn.boundLog config ++
          [ldap.Event.Search ⟨config.LDAPBaseDN, ldap.ScopeWholeSubtree,
            ldap.NeverDerefAliases, 0, 0, false, "(uid=" ++ username ++ ")", ["dn"]⟩])
          ⟨first.DN⟩ with
      | none => simp
      | some e => simpa using hne e
    · intro f r hfr
      obtain ⟨rfl, rfl⟩ := List.cons.inj hfr
      refine ⟨rfl, ?_⟩
      cases hd : dir.del (conn.boundLog config ++
          [ldap.Event.Search ⟨config.LDAPBaseDN, ldap.ScopeWholeSubtree,
            ldap.NeverDerefAliases, 0, 0, false, "(uid=" ++ username ++ ")", ["dn"]⟩])
          ⟨first.DN⟩ with
      | none => simp
      | some e => simp

/-- Witness of C4 on a directory with two entries for `alice`: the first one is
returned by `FetchUserDN` and deleted by `deleteUser`. -/
theorem C4_first_match_wins_witness :
    (sample.directory [sample.alice, sample.alice2] [] []).search (conn.boundLog sample.config)
        ⟨"dc=example,dc=com", 2, 0, 0, 0, false, "(uid=alice)", ["dn"]⟩
      = .ok ⟨[sample.alice, sample.alice2]⟩
    ∧ modify.LDAPUserDNFetcher.FetchUserDN ⟨sample.config⟩
        (sample.directory [sample.alice, sample.alice2] [] []) (conn.boundLog sample.config) "alice"
      = (conn.boundLog sample.config ++
          [ldap.Event.Search ⟨"dc=example,dc=com", 2, 0, 0, 0, false, "(uid=alice)", ["dn"]⟩],
         .ok "uid=alice,ou=people,dc=example,dc=com")
    ∧ (deluser.deleteUser (sample.directory [sample.alice, sample.alice2] [] [])
        sample.config "alice").1
      = [ldap.Event.DialURL "ldap://localhost:389",
         ldap.Event.Bind "cn=admin,dc=example,dc=com" "secret",
         ldap.Event.Search ⟨"dc=example,dc=com", 2, 0, 0, 0, false, "(uid=alice)", ["dn"]⟩,
         ldap.Event.Del ⟨"uid=alice,ou=people,dc=example,dc=com"⟩,
         ldap.Event.Close] :=
  ⟨rfl,
   ((C4_first_match_wins (sample.directory [sample.alice, sample.alice2] [] []) sample.config
      "alice" (conn.boundLog sample.config) [sample.alice, sample.alice2]
      rfl rfl rfl rfl).2.2.2 sample.alice [sample.alice2] rfl).1,
   ((C4_first_match_wins (sample.directory [sample.alice, sample.alice2] [] []) sample.config
      "alice" (conn.boundLog sample.config) [sample.alice, sample.alice2]
      rfl rfl rfl rfl).2.2.2 sample.alice [sample.alice2] rfl).2⟩

/-! ## C3: removing a user from a group -/

theorem userInGroupLoop_iff (userDN : String) (members : List String) :
    modify.userInGroupLoop userDN members = true ↔ userDN ∈ members := by
  induction members with
  | nil => simp [modify.userInGroupLoop]
  | cons m ms ih =>
    by_cases h : m = userDN
    · simp [modify.userInGroupLoop, h]
    · have h2 : ¬ userDN = m := fun h3 => h h3.symm
      simp [modify.userInGroupLoop, h, h2, ih]

theorem notInGroup_head (username groupName : String) :
    (modify.notInGroup username groupName).data.head? = some '用' := by
  unfold modify.notInGroup
  exact data_head_append _ _ _ (data_head_append _ _ _ (data_head_append _ _ _
    (data_head_append _ _ _ (by decide))))

/-- C3: when the user search and the group search of `delUserFromGroups` both
return at least one entry, then (a) if the DN of the first user entry is not
among the `member` values of the first group entry, the function returns the
"user not in group" error, whose message differs from every other error message
of the function, and the log holds the two searches and the close only, no
request that changes the directory; (b) if that DN is among them, the log holds
exactly one modify request, on the DN of the first group entry, with the single
change: delete that one value from `member`. -/
theorem C3_remove_requires_membership (dir : ldap.Directory) (config : conn.Config)
    (username groupName : String) (user group : ldap.Entry) (users groups : List ldap.Entry)
    (hdial : dir.dial [] config.LDAPURL = none)
    (hbind : dir.bind [ldap.Event.DialURL config.LDAPURL] config.AdminDN config.AdminPass = none)
    (huser : dir.search (conn.boundLog config) (modify.personSearch config username)
      = .ok ⟨user :: users⟩)
    (hgroup : dir.search
      (conn.boundLog config ++ [ldap.Event.Search (modify.personSearch config username)])
      (modify.groupSearch config groupName) = .ok ⟨group :: groups⟩) :
    (user.DN ∉ group.GetAttributeValues "member" →
      modify.delUserFromGroups dir config username groupName
        = (conn.boundLog config ++
            [ldap.Event.Search (modify.personSearch config username),
             ldap.Event.Search (modify.groupSearch config groupName),
             ldap.Event.Close],
           some (modify.notInGroup username groupName))
      ∧ (∀ ev ∈ (modify.delUserFromGroups dir config username groupName).1,
          ev.isMutation = false)
      ∧ modify.notInGroup username groupName ≠ "未找到用户"
      ∧ modify.notInGroup username groupName ≠ "OU '" ++ groupName ++ "' 未找到"
      ∧ (∀ e : String, modify.notInGroup username groupName ≠ "移除用户失败: " ++ e)
      ∧ (∀ e : String, modify.notInGroup username groupName ≠ "搜索用户失败: " ++ e)
      ∧ (∀ e : String, modify.notInGroup username groupName ≠ "搜索OU失败: " ++ e)
      ∧ (∀ e : String, modify.notInGroup username groupName ≠ "连接 LDAP 时出错: " ++ e))
    ∧ (user.DN ∈ group.GetAttributeValues "member" →
      (modify.delUserFromGroups dir config username groupName).1
        = conn.boundLog config ++
            [ldap.Event.Search (modify.personSearch config username),
             ldap.Event.Search (modify.groupSearch config groupName),
             ldap.Event.Modify ⟨group.DN, [⟨ldap.DeleteAttribute, "member", [user.DN]⟩]⟩,
             ldap.Event.Close]) := by
  have hconn := GetLDAPConnection_ok dir config hdial hbind
  have hu : dir.search (conn.boundLog config)
      ⟨config.LDAPBaseDN, ldap.ScopeWholeSubtree, ldap.NeverDerefAliases, 0, 0, false,
        "(&(objectClass=inetOrgPerson)(uid=" ++ username ++ "))", ["dn"]⟩
      = .ok ⟨user :: users⟩ := huser
  have hg : dir.search (conn.boundLog config ++
      [ldap.Event.Search ⟨config.LDAPBaseDN, ldap.ScopeWholeSubtree, ldap.NeverDerefAliases,
        0, 0, false, "(&(objectClass=inetOrgPerson)(uid=" ++ username ++ "))", ["dn"]⟩])
      ⟨config.GroupOU ++ "," ++ config.LDAPBaseDN, ldap.ScopeWholeSubtree,
        ldap.NeverDerefAliases, 0, 0, false,
        "(&(objectClass=groupOfNames)(cn=" ++ groupName ++ "))", ["dn", "member"]⟩
      = .ok ⟨group :: groups⟩ := hgroup
  have hhead := notInGroup_head username groupName
  constructor
  · intro hnot
    have hloop : modify.userInGroupLoop user.DN (group.GetAttributeValues "member") = false := by
      rw [← Bool.not_eq_true, userInGroupLoop_iff]
      exact hnot
    have hrun : modify.delUserFromGroups dir config username groupName
        = (conn.boundLog config ++
            [ldap.Event.Search (modify.personSearch config username),
             ldap.Event.Search (modify.groupSearch config groupName),
             ldap.Event.Close],
           some (modify.notInGroup username groupName)) := by
      simp [modify.delUserFromGroups, hconn, deferClose, ldap.Search, ldap.NewSearchRequest,
        ldap.Close, hu, hg, hloop, modify.personSearch, modify.groupSearch, modify.notInGroup]
    refine ⟨hrun, ?_, ?_, ?_, ?_, ?_, ?_, ?_⟩
    · rw [hrun]
      intro ev hev
      simp [conn.boundLog] at hev
      rcases hev with h | h | h | h | h <;> subst h <;> rfl
    · exact ne_of_head_ne _ _ '用' '未' hhead (by decide) (by decide)
    · exact ne_of_head_ne _ _ '用' 'O' hhead
        (data_head_append _ _ _ (data_head_append _ _ _ (by decide))) (by decide)
    · exact fun e => ne_of_head_ne _ _ '用' '移' hhead (data_head_append _ _ _ (by decide))
        (by decide)
    · exact fun e => ne_of_head_ne _ _ '用' '搜' hhead (data_head_append _ _ _ (by decide))
        (by decide)
    · exact fun e => ne_of_head_ne _ _ '用' '搜' hhead (data_head_append _ _ _ (by decide))
        (by decide)
    · exact fun e => ne_of_head_ne _ _ '用' '连' hhead (data_head_append _ _ _ (by decide))
        (by decide)
  · intro hmem
    have hloop : modify.userInGroupLoop user.DN (group.GetAttributeValues "member") = true :=
      (userInGroupLoop_iff _ _).2 hmem
    simp only [modify.delUserFromGroups, hconn, deferClose, ldap.Search, ldap.NewSearchRequest,
      ldap.Close, hu, hg, hloop, modify.personSearch, modify.groupSearch, ldap.Modify,
      ldap.NewModifyRequest, ldap.ModifyRequest.Delete]
    cases dir.modify (conn.boundLog config ++
        [ldap.Event.Search ⟨config.LDAPBaseDN, ldap.ScopeWholeSubtree, ldap.NeverDerefAliases,
          0, 0, false, "(&(objectClass=inetOrgPerson)(uid=" ++ username ++ "))", ["dn"]⟩] ++
        [ldap.Event.Search ⟨config.GroupOU ++ "," ++ config.LDAPBaseDN, ldap.ScopeWholeSubtree,
          ldap.NeverDerefAliases, 0, 0, false,
          "(&(objectClass=groupOfNames)(cn=" ++ groupName ++ "))", ["dn", "member"]⟩])
        ⟨group.DN, [] ++ [⟨ldap.DeleteAttribute, "member", [user.DN]⟩]⟩ <;> simp

/-- Witness of C3: `alice` is not a member of `ops`, so nothing is modified;
she is a member of `dev`, so one value is deleted from its `member`. -/
theorem C3_remove_requires_membership_witness :
    sample.alice.DN ∉ sample.ops.GetAttributeValues "member"
    ∧ modify.delUserFromGroups (sample.directory [sample.alice] [sample.ops] []) sample.config
        "alice" "ops"
      = (conn.boundLog sample.config ++
          [ldap.Event.Search (modify.personSearch sample.config "alice"),
           ldap.Event.Search (modify.groupSearch sample.config "ops"),
           ldap.Event.Close],
         some (modify.notInGroup "alice" "ops"))
    ∧ sample.alice.DN ∈ sample.dev.GetAttributeValues "member"
    ∧ (modify.delUserFromGroups (sample.directory [sample.alice] [sample.dev] []) sample.config
        "alice" "dev").1
      = conn.boundLog sample.config ++
          [ldap.Event.Search (modify.personSearch sample.config "alice"),
           ldap.Event.Search (modify.groupSearch sample.config "dev"),
           ldap.Event.Modify ⟨"cn=dev,ou=groups,dc=example,dc=com",
             [⟨ldap.DeleteAttribute, "member", ["uid=alice,ou=people,dc=example,dc=com"]⟩]⟩,
           ldap.Event.Close] :=
  ⟨by decide,
   ((C3_remove_requires_membership (sample.directory [sample.alice] [sample.ops] [])
      sample.config "alice" "ops" sample.alice sample.ops [] [] rfl rfl rfl rfl).1
      (by decide)).1,
   by decide,
   (C3_remove_requires_membership (sample.directory [sample.alice] [sample.dev] [])
      sample.config "alice" "dev" sample.alice sample.dev [] [] rfl rfl rfl rfl).2
      (by decide)⟩

/-! ## C2: adding attribute values -/

theorem foldl_set_range (g : String → String) (n : Nat) (vs : List String)
    (hn : n ≤ vs.length) :
    (List.range n).foldl (fun vs i => vs.set i (g (vs.getD i ""))) vs
      = (vs.take n).map g ++ vs.drop n := by
  induction n with
  | zero => simp
  | succ n ih =>
    have hlt : n < vs.length := hn
    rw [List.range_succ, List.foldl_append, ih (Nat.le_of_lt hlt)]
    have hlen : ((vs.take n).map g).length = n := by simp; omega
    have hdrop : vs.drop n = vs[n] :: vs.drop (n + 1) := List.drop_eq_getElem_cons hlt
    have htake : vs.take (n + 1) = vs.take n ++ [vs[n]] := by
      rw [List.take_succ, List.getElem?_eq_getElem hlt]; rfl
    simp only [List.foldl_cons, List.foldl_nil]
    rw [List.getD_eq_getElem?_getD, List.getElem?_append_right (by omega), hlen, Nat.sub_self,
      List.set_append_right _ _ (by omega), hlen, Nat.sub_self, hdrop, htake]
    simp only [List.set_cons_zero, List.getElem?_cons_zero, Option.getD_some, List.map_append,
      List.map_cons, List.map_nil, List.append_assoc, List.singleton_append]

theorem titleLoop_eq_map (config : conn.Config) (values : List String) :
    modify.titleLoop config values
      = values.map (fun v => "cn=" ++ v ++ "," ++ config.GroupOU ++ "," ++ config.LDAPBaseDN) := by
  unfold modify.titleLoop
  rw [foldl_set_range (fun v => "cn=" ++ v ++ "," ++ config.GroupOU ++ "," ++ config.LDAPBaseDN)
    values.length values (Nat.le_refl _)]
  simp

/-- C2: when the lookup of the user succeeds with DN `d` and the value list is
not empty, `AddUserattrName` issues, after the lookup, exactly one modify
request, on `d`, holding the single change "add to attribute `attrName`" with
the values: for `attrName` equal to `"title"` each value `v` turned into
`cn=<v>,<GroupOU>,<LDAPBaseDN>` in the same order, and for any other name
(such as `"Title"`) the values as given. -/
theorem C2_add_attribute_values (dir : ldap.Directory) (f : modify.UserDNFetcher)
    (config : conn.Config) (username attrName : String) (values : List String)
    (log1 : ldap.Log) (d : String)
    (hdial : dir.dial [] config.LDAPURL = none)
    (hbind : dir.bind [ldap.Event.DialURL config.LDAPURL] config.AdminDN config.AdminPass = none)
    (hfetch : f.FetchUserDN dir (conn.boundLog config) username = (log1, .ok d))
    (hvalues : values ≠ []) :
    (attrName = "title" →
      (modify.AddUserattrName dir f config username attrName values).1
        = log1 ++
          [ldap.Event.Modify ⟨d, [⟨ldap.AddAttribute, "title",
              values.map (fun v => "cn=" ++ v ++ "," ++ config.GroupOU ++ "," ++ config.LDAPBaseDN)⟩]⟩,
           ldap.Event.Close])
    ∧ (attrName ≠ "title" →
      (modify.AddUserattrName dir f config username attrName values).1
        = log1 ++
          [ldap.Event.Modify ⟨d, [⟨ldap.AddAttribute, attrName, values⟩]⟩,
           ldap.Event.Close])
    ∧ (values.map
        (fun v => "cn=" ++ v ++ "," ++ config.GroupOU ++ "," ++ config.LDAPBaseDN)).length
        = values.length
    ∧ "Title" ≠ "title" ∧ "TITLE" ≠ "title" := by
  have hconn := GetLDAPConnection_ok dir config hdial hbind
  have hpos : values.length > 0 := List.length_pos.2 hvalues
  refine ⟨?_, ?_, by simp, by decide, by decide⟩
  · intro ht
    subst ht
    simp only [modify.AddUserattrName, hconn, deferClose, hfetch, hpos, if_true,
      titleLoop_eq_map, ldap.Modify, ldap.NewModifyRequest, ldap.ModifyRequest.Add, ldap.Close]
    cases dir.modify log1 ⟨d, [] ++ [⟨ldap.AddAttribute, "title",
      values.map (fun v => "cn=" ++ v ++ "," ++ config.GroupOU ++ "," ++ config.LDAPBaseDN)⟩]⟩
      <;> simp
  · intro ht
    simp only [modify.AddUserattrName, hconn, deferClose, hfetch, hpos, if_true, ht, if_false,
      ldap.Modify, ldap.NewModifyRequest, ldap.ModifyRequest.Add, ldap.Close]
    cases dir.modify log1 ⟨d, [] ++ [⟨ldap.AddAttribute, attrName, values⟩]⟩ <;> simp

/-- Witness of C2 with the fetcher of the program: `title` values are turned
into group DNs. -/
theorem C2_add_attribute_values_witness :
    ["Engineer"] ≠ ([] : List String)
    ∧ (modify.AddUserattrName (sample.directory [sample.alice] [] [])
        (modify.LDAPUserDNFetcher.toUserDNFetcher ⟨sample.config⟩) sample.config
        "alice" "title" ["Engineer"]).1
      = (conn.boundLog sample.config ++
          [ldap.Event.Search ⟨"dc=example,dc=com", 2, 0, 0, 0, false, "(uid=alice)", ["dn"]⟩]) ++
          [ldap.Event.Modify ⟨"uid=alice,ou=people,dc=example,dc=com",
            [⟨ldap.AddAttribute, "title", ["cn=Engineer,ou=groups,dc=example,dc=com"]⟩]⟩,
           ldap.Event.Close] :=
  ⟨by decide,
   (C2_add_attribute_values (sample.directory [sample.alice] [] [])
      (modify.LDAPUserDNFetcher.toUserDNFetcher ⟨sample.config⟩) sample.config
      "alice" "title" ["Engineer"]
      (conn.boundLog sample.config ++
        [ldap.Event.Search ⟨"dc=example,dc=com", 2, 0, 0, 0, false, "(uid=alice)", ["dn"]⟩])
      "uid=alice,ou=people,dc=example,dc=com" rfl rfl rfl (by decide)).1 rfl⟩

/-! ## C5: adding a user to several groups -/

theorem addToGroupsLoop_all_ok (dir : ldap.Directory) (config : conn.Config) (d : String)
    (gs : List String) (log : ldap.Log)
    (hok : ∀ i g, gs[i]? = some g →
      dir.modify (log ++ modify.memberAdds config d (gs.take i)) (modify.memberAdd config d g)
        = none) :
    modify.addToGroupsLoop dir config d gs log = (log ++ modify.memberAdds config d gs, none) := by
  induction gs generalizing log with
  | nil => simp [modify.addToGroupsLoop, modify.memberAdds]
  | cons g rest ih =>
    have h0 : dir.modify log (modify.memberAdd config d g) = none := by
      simpa [modify.memberAdds] using hok 0 g (by simp)
    have hrest := ih (log ++ [ldap.Event.Modify (modify.memberAdd config d g)]) (by
      intro i g2 hg2
      have := hok (i + 1) g2 (by simpa using hg2)
      simpa [modify.memberAdds] using this)
    simp only [modify.memberAdd] at h0 hrest
    simp only [modify.addToGroupsLoop, ldap.Modify, ldap.NewModifyRequest,
      ldap.ModifyRequest.Add, List.nil_append, h0, hrest]
    simp [modify.memberAdds, modify.memberAdd]

theorem addToGroupsLoop_first_failure (dir : ldap.Directory) (config : conn.Config) (d : String)
    (gs : List String) (log : ldap.Log) (k : Nat) (gk e : String)
    (hk : gs[k]? = some gk)
    (hbefore : ∀ i g, i < k → gs[i]? = some g →
      dir.modify (log ++ modify.memberAdds config d (gs.take i)) (modify.memberAdd config d g)
        = none)
    (hfail : dir.modify (log ++ modify.memberAdds config d (gs.take k))
      (modify.memberAdd config d gk) = some e) :
    modify.addToGroupsLoop dir config d gs log
      = (log ++ modify.memberAdds config d (gs.take (k + 1)),
         some ("无法将用户添加到组中 " ++ gk ++ ": " ++ e)) := by
  induction gs generalizing log k with
  | nil => simp at hk
  | cons g rest ih =>
    cases k with
    | zero =>
      have hg : g = gk := by simpa using hk
      subst hg
      have h0 : dir.modify log (modify.memberAdd config d g) = some e := by
        simpa [modify.memberAdds] using hfail
      simp only [modify.memberAdd] at h0
      simp only [modify.addToGroupsLoop, ldap.Modify, ldap.NewModifyRequest,
        ldap.ModifyRequest.Add, List.nil_append, h0]
      simp [modify.memberAdds, modify.memberAdd]
    | succ k =>
      have h0 : dir.modify log (modify.memberAdd config d g) = none := by
        simpa [modify.memberAdds] using hbefore 0 g (Nat.succ_pos k) (by simp)
      have hrest := ih (log ++ [ldap.Event.Modify (modify.memberAdd config d g)]) k
        (by simpa using hk)
        (by
          intro i g2 hi hg2
          have := hbefore (i + 1) g2 (Nat.succ_lt_succ hi) (by simpa using hg2)
          simpa [modify.memberAdds] using this)
        (by simpa [modify.memberAdds] using hfail)
      simp only [modify.memberAdd] at h0 hrest
      simp only [modify.addToGroupsLoop, ldap.Modify, ldap.NewModifyRequest,
        ldap.ModifyRequest.Add, List.nil_append, h0, hrest]
      simp [modify.memberAdds, modify.memberAdd]

/-- C5: when the lookup of the user returns DN `d`, `AddUserToGroups` issues
its modify requests in list order, the `i`-th one adding the single value `d`
to `member` of `cn=<gs[i]>,<GroupOU>,<LDAPBaseDN>`.  If the request for
`gs[k]` is the first one the directory rejects, the requests for
`gs[0], ..., gs[k]` and no later one have been issued (those before `k`
accepted), and the error returned names `gs[k]`; if none is rejected, one
request per group has been issued and `nil` is returned.  The connection is
closed in both cases. -/
theorem C5_groups_stop_at_first_failure (dir : ldap.Directory) (f : modify.UserDNFetcher)
    (config : conn.Config) (username : String) (gs : List String) (log1 : ldap.Log) (d : String)
    (hdial : dir.dial [] config.LDAPURL = none)
    (hbind : dir.bind [ldap.Event.DialURL config.LDAPURL] config.AdminDN config.AdminPass = none)
    (hfetch : f.FetchUserDN dir (conn.boundLog config) username = (log1, .ok d)) :
    (∀ (k : Nat) (gk e : String), gs[k]? = some gk →
      (∀ i g, i < k → gs[i]? = some g →
        dir.modify (log1 ++ modify.memberAdds config d (gs.take i))
          (modify.memberAdd config d g) = none) →
      dir.modify (log1 ++ modify.memberAdds config d (gs.take k))
        (modify.memberAdd config d gk) = some e →
      modify.AddUserToGroups dir f config username gs
        = (log1 ++ modify.memberAdds config d (gs.take (k + 1)) ++ [ldap.Event.Close],
           some ("无法将用户添加到组中 " ++ gk ++ ": " ++ e)))
    ∧ ((∀ i g, gs[i]? = some g →
        dir.modify (log1 ++ modify.memberAdds config d (gs.take i))
          (modify.memberAdd config d g) = none) →
      modify.AddUserToGroups dir f config username gs
        = (log1 ++ modify.memberAdds config d gs ++ [ldap.Event.Close], none)) := by
  have hconn := GetLDAPConnection_ok dir config hdial hbind
  constructor
  · intro k gk e hk hbefore hfail
    simp only [modify.AddUserToGroups, hconn, hfetch, deferClose, ldap.Close,
      addToGroupsLoop_first_failure dir config d gs log1 k gk e hk hbefore hfail]
  · intro hok
    simp only [modify.AddUserToGroups, hconn, hfetch, deferClose, ldap.Close,
      addToGroupsLoop_all_ok dir config d gs log1 hok]

/-- Witness of C5: with the group `ops` rejected, the requests for `dev` and
`ops` are issued, the one for `qa` is not, and the error names `ops`; with no
group rejected, both requests are issued and no error is returned. -/
theorem C5_groups_stop_at_first_failure_witness :
    modify.AddUserToGroups
        (sample.directory [sample.alice] [] ["cn=ops,ou=groups,dc=example,dc=com"])
        (modify.LDAPUserDNFetcher.toUserDNFetcher ⟨sample.config⟩) sample.config
        "alice" ["dev", "ops", "qa"]
      = ((conn.boundLog sample.config ++
            [ldap.Event.Search ⟨"dc=example,dc=com", 2, 0, 0, 0, false, "(uid=alice)", ["dn"]⟩]) ++
          [ldap.Event.Modify ⟨"cn=dev,ou=groups,dc=example,dc=com",
             [⟨ldap.AddAttribute, "member", ["uid=alice,ou=people,dc=example,dc=com"]⟩]⟩,
           ldap.Event.Modify ⟨"cn=ops,ou=groups,dc=example,dc=com",
             [⟨ldap.AddAttribute, "member", ["uid=alice,ou=people,dc=example,dc=com"]⟩]⟩] ++
          [ldap.Event.Close],
         some "无法将用户添加到组中 ops: No Such Object")
    ∧ modify.AddUserToGroups (sample.directory [sample.alice] [] [])
        (modify.LDAPUserDNFetcher.toUserDNFetcher ⟨sample.config⟩) sample.config
        "alice" ["dev", "ops"]
      = ((conn.boundLog sample.config ++
            [ldap.Event.Search ⟨"dc=example,dc=com", 2, 0, 0, 0, false, "(uid=alice)", ["dn"]⟩]) ++
          [ldap.Event.Modify ⟨"cn=dev,ou=groups,dc=example,dc=com",
             [⟨ldap.AddAttribute, "member", ["uid=alice,ou=people,dc=example,dc=com"]⟩]⟩,
           ldap.Event.Modify ⟨"cn=ops,ou=groups,dc=example,dc=com",
             [⟨ldap.AddAttribute, "member", ["uid=alice,ou=people,dc=example,dc=com"]⟩]⟩] ++
          [ldap.Event.Close],
         none) :=
  ⟨(C5_groups_stop_at_first_failure
      (sample.directory [sample.alice] [] ["cn=ops,ou=groups,dc=example,dc=com"])
      (modify.LDAPUserDNFetcher.toUserDNFetcher ⟨sample.config⟩) sample.config
      "alice" ["dev", "ops", "qa"]
      (conn.boundLog sample.config ++
        [ldap.Event.Search ⟨"dc=example,dc=com", 2, 0, 0, 0, false, "(uid=alice)", ["dn"]⟩])
      "uid=alice,ou=people,dc=example,dc=com" rfl rfl rfl).1 1 "ops" "No Such Object" rfl
      (by
        intro i g hi hg
        have hi0 : i = 0 := by omega
        subst hi0
        have hg0 : "dev" = g := by simpa using hg
        subst hg0
        decide)
      (by decide),
   (C5_groups_stop_at_first_failure (sample.directory [sample.alice] [] [])
      (modify.LDAPUserDNFetcher.toUserDNFetcher ⟨sample.config⟩) sample.config
      "alice" ["dev", "ops"]
      (conn.boundLog sample.config ++
        [ldap.Event.Search ⟨"dc=example,dc=com", 2, 0, 0, 0, false, "(uid=alice)", ["dn"]⟩])
      "uid=alice,ou=people,dc=example,dc=com" rfl rfl rfl).2
      (by intro i g _; simp [sample.directory])⟩

/-! ## C6: changing the password -/

/-- C6: the two `hashPasswordSHA` functions agree on every input.  When the
connection is open and the injected fetcher leaves the log `log1`, then, if it
returned DN `d`, `ModifyUserPassword` issues after it exactly one modify
request, on `d`, with exactly one change, a replace (operation code 2, not the
add code 0) of `userPassword` by the one-element list `[h]`, `h` being what the
`hashPasswordSHA` of the add-user program returns for the new password; and if
the fetcher returned an error, it issues nothing but the close and returns the
error. -/
theorem C6_password_replace (dir : ldap.Directory) (f : modify.UserDNFetcher)
    (config : conn.Config) (username newPassword : String) (log1 : ldap.Log)
    (r : Except String String)
    (hdial : dir.dial [] config.LDAPURL = none)
    (hbind : dir.bind [ldap.Event.DialURL config.LDAPURL] config.AdminDN config.AdminPass = none)
    (hfetch : f.FetchUserDN dir (conn.boundLog config) username = (log1, r)) :
    (∀ p, modify.hashPasswordSHA p = adduser.hashPasswordSHA p)
    ∧ ldap.ReplaceAttribute ≠ ldap.AddAttribute
    ∧ (∀ d, r = .ok d →
        ∃ h, adduser.hashPasswordSHA newPassword = .ok h
          ∧ (modify.ModifyUserPassword dir f config username newPassword).1
            = log1 ++
              [ldap.Event.Modify ⟨d, [⟨ldap.ReplaceAttribute, "userPassword", [h]⟩]⟩,
               ldap.Event.Close])
    ∧ (∀ e, r = .error e →
        modify.ModifyUserPassword dir f config username newPassword
          = (log1 ++ [ldap.Event.Close], some ("获取用户 DN 失败: " ++ e))) := by
  have hconn := GetLDAPConnection_ok dir config hdial hbind
  refine ⟨fun p => (modify_hash_eq p).trans (adduser_hash_eq p).symm, by decide, ?_, ?_⟩
  · intro d hd
    subst hd
    refine ⟨_, adduser_hash_eq newPassword, ?_⟩
    simp only [modify.ModifyUserPassword, hconn, hfetch, deferClose, ldap.Close,
      modify_hash_eq, ldap.Modify, ldap.NewModifyRequest, ldap.ModifyRequest.Replace]
    cases dir.modify log1 ⟨d, [] ++ [⟨ldap.ReplaceAttribute, "userPassword",
      [shaTag ++ base64.EncodeToString (sha1.checkSum (bytesOf newPassword))]⟩]⟩ <;> simp
  · intro e he
    subst he
    simp only [modify.ModifyUserPassword, hconn, hfetch, deferClose, ldap.Close]

set_option maxRecDepth 100000 in
/-- Witness of C6 with a stub fetcher: the password `"password"` is replaced
by its hashed form. -/
theorem C6_password_replace_witness :
    (sample.stubFetcher "uid=alice,ou=people,dc=example,dc=com").FetchUserDN
        (sample.directory [] [] []) (conn.boundLog sample.config) "alice"
      = (conn.boundLog sample.config, .ok "uid=alice,ou=people,dc=example,dc=com")
    ∧ (modify.ModifyUserPassword (sample.directory [] [] [])
        (sample.stubFetcher "uid=alice,ou=people,dc=example,dc=com") sample.config
        "alice" "password").1
      = conn.boundLog sample.config ++
          [ldap.Event.Modify ⟨"uid=alice,ou=people,dc=example,dc=com",
            [⟨ldap.ReplaceAttribute, "userPassword", ["\x7bSHA\x7dW6ph5Mm5Pz8GgiULbPgzG37mj9g="]⟩]⟩,
           ldap.Event.Close] := by
  refine ⟨rfl, ?_⟩
  obtain ⟨h, hh, hlog⟩ := (C6_password_replace (sample.directory [] [] [])
    (sample.stubFetcher "uid=alice,ou=people,dc=example,dc=com") sample.config
    "alice" "password" (conn.boundLog sample.config)
    (.ok "uid=alice,ou=people,dc=example,dc=com") rfl rfl rfl).2.2.1 _ rfl
  have hv : adduser.hashPasswordSHA "password"
      = .ok "\x7bSHA\x7dW6ph5Mm5Pz8GgiULbPgzG37mj9g=" := by decide
  rw [hv] at hh
  cases hh
  exact hlog

/-! ## C7: the add request of the add-user program -/

theorem foldl_Attribute (l : List (String × List String)) (dn : String)
    (acc : List ldap.Attribute) :
    l.foldl (fun (req : ldap.AddRequest) kv => req.Attribute kv.1 kv.2) ⟨dn, acc⟩
      = ⟨dn, acc ++ l.map (fun kv => ⟨kv.1, kv.2⟩)⟩ := by
  induction l generalizing acc with
  | nil => simp
  | cons kv rest ih =>
    rw [List.foldl_cons,
      show (⟨dn, acc⟩ : ldap.AddRequest).Attribute kv.1 kv.2 = ⟨dn, acc ++ [⟨kv.1, kv.2⟩]⟩
        from rfl, ih]
    simp

/-- C7: for every argument triple (username, password, surname) and every
settings record, with the connection open, the add-user program issues exactly
one add request and then closes; its DN is `uid=<username>,<UserOU>,<LDAPBaseDN>`;
its attributes are, up to the order in which Go ranges over the map,
objectClass = [inetOrgPerson, person, organizationalPerson, top],
userPassword = [h] with `h` the result of `hashPasswordSHA` on the password,
sn = displayname = givenname = [surname], cn = uid = [username],
mail = [username@DomainMail], and nothing else.  The cleartext password is put
into no attribute value: it reaches the request through `hashPasswordSHA` only,
so the program run with any other password of the same hashed form does
exactly the same. -/
theorem C7_add_request (dir : ldap.Directory)
    (mapRange : List (String × List String) → List (String × List String))
    (config : conn.Config) (prog username password surname : String)
    (hrange : ∀ m, (mapRange m).Perm m)
    (hdial : dir.dial [] config.LDAPURL = none)
    (hbind : dir.bind [ldap.Event.DialURL config.LDAPURL] config.AdminDN config.AdminPass
      = none) :
    ∃ (h : String) (attrs : List ldap.Attribute),
      adduser.hashPasswordSHA password = .ok h
      ∧ (adduser.main dir mapRange (.ok config) [prog, username, password, surname]).1
        = conn.boundLog config ++
            [ldap.Event.Add
              ⟨"uid=" ++ username ++ "," ++ config.UserOU ++ "," ++ config.LDAPBaseDN, attrs⟩,
             ldap.Event.Close]
      ∧ attrs.Perm (adduser.expectedAttributes config username surname h)
      ∧ (∀ other : String, adduser.hashPasswordSHA other = .ok h →
          adduser.main dir mapRange (.ok config) [prog, username, other, surname]
            = adduser.main dir mapRange (.ok config) [prog, username, password, surname]) := by
  have hconn := GetLDAPConnection_ok dir config hdial hbind
  have hperm := (hrange (adduser.Attributes
    ⟨username, password, surname, username, username ++ "@" ++ config.DomainMail⟩
    (shaTag ++ base64.EncodeToString (sha1.checkSum (bytesOf password))))).map
    (fun kv => (⟨kv.1, kv.2⟩ : ldap.Attribute))
  refine ⟨_, _, adduser_hash_eq password, ?_, hperm, ?_⟩
  · simp only [adduser.main, adduser.User.addUser, hconn, deferClose, ldap.Close,
      adduser_hash_eq, ldap.Add, ldap.NewAddRequest, foldl_Attribute, List.nil_append]
    cases dir.add (conn.boundLog config)
      ⟨"uid=" ++ username ++ "," ++ config.UserOU ++ "," ++ config.LDAPBaseDN,
        (mapRange (adduser.Attributes
          ⟨username, password, surname, username, username ++ "@" ++ config.DomainMail⟩
          (shaTag ++ base64.EncodeToString (sha1.checkSum (bytesOf password))))).map
          (fun kv => (⟨kv.1, kv.2⟩ : ldap.Attribute))⟩ <;> rfl
  · intro other hother
    have hpw := adduser_hash_eq password
    simp only [adduser.main, adduser.User.addUser, hconn, deferClose, adduser.Attributes,
      hother, hpw]

/-- Witness of C7 with the range order equal to the written order. -/
theorem C7_add_request_witness :
    ∃ (h : String) (attrs : List ldap.Attribute),
      adduser.hashPasswordSHA "wonderland" = .ok h
      ∧ (adduser.main (sample.directory [] [] []) id (.ok sample.config)
          ["adduser", "alice", "wonderland", "Liddell"]).1
        = conn.boundLog sample.config ++
            [ldap.Event.Add ⟨"uid=" ++ "alice" ++ "," ++ sample.config.UserOU ++ "," ++
              sample.config.LDAPBaseDN, attrs⟩,
             ldap.Event.Close]
      ∧ attrs.Perm (adduser.expectedAttributes sample.config "alice" "Liddell" h)
      ∧ (∀ other : String, adduser.hashPasswordSHA other = .ok h →
          adduser.main (sample.directory [] [] []) id (.ok sample.config)
              ["adduser", "alice", other, "Liddell"]
            = adduser.main (sample.directory [] [] []) id (.ok sample.config)
              ["adduser", "alice", "wonderland", "Liddell"]) :=
  C7_add_request (sample.directory [] [] []) id sample.config "adduser" "alice" "wonderland"
    "Liddell" (fun m => List.Perm.refl m) rfl rfl

/-! ## C10: listing all organisational units -/

theorem GetLDAPConnection_cases (dir : ldap.Directory) (config : conn.Config) :
    (∃ e, conn.GetLDAPConnection dir [] config = ([ldap.Event.DialURL config.LDAPURL], .error e))
    ∨ (∃ e, conn.GetLDAPConnection dir [] config = (conn.boundLog config, .error e))
    ∨ conn.GetLDAPConnection dir [] config = (conn.boundLog config, .ok ()) := by
  cases hd : dir.dial [] config.LDAPURL with
  | some e =>
    left
    exact ⟨"连接失败: " ++ e, by simp [conn.GetLDAPConnection, ldap.DialURL, hd]⟩
  | none =>
    cases hb : dir.bind [ldap.Event.DialURL config.LDAPURL] config.AdminDN config.AdminPass with
    | some e => right; left; exact ⟨_, GetLDAPConnection_bind_error dir config e hd hb⟩
    | none => right; right; exact GetLDAPConnection_ok dir config hd hb

theorem FetchUserDN_log (fc : modify.LDAPUserDNFetcher) (dir : ldap.Directory) (log : ldap.Log)
    (username : String) :
    ∃ r, fc.FetchUserDN dir log username
      = (log ++ [ldap.Event.Search ⟨fc.Config.LDAPBaseDN, ldap.ScopeWholeSubtree,
          ldap.NeverDerefAliases, 0, 0, false, "(uid=" ++ username ++ ")", ["dn"]⟩], r) := by
  simp only [modify.LDAPUserDNFetcher.FetchUserDN, ldap.Search, ldap.NewSearchRequest]
  generalize dir.search _ _ = sres
  rcases sres with err | ⟨⟨_ | ⟨e0, rest⟩⟩⟩
  · exact ⟨_, rfl⟩
  · exact ⟨_, rfl⟩
  · exact ⟨_, rfl⟩

theorem addToGroupsLoop_requests (dir : ldap.Directory) (config : conn.Config) (d : String)
    (gs : List String) (log : ldap.Log) :
    ldap.requests (modify.addToGroupsLoop dir config d gs log).1
      ≤ ldap.requests log + gs.length := by
  induction gs generalizing log with
  | nil => simp [modify.addToGroupsLoop]
  | cons g rest ih =>
    simp only [modify.addToGroupsLoop, ldap.Modify]
    generalize dir.modify _ _ = m
    cases m with
    | some e => simp [ldap.requests, ldap.Event.isRequest]
    | none =>
      refine Nat.le_trans (ih _) ?_
      simp [ldap.requests, ldap.Event.isRequest]; omega

theorem addUser_requests (dir : ldap.Directory)
    (mapRange : List (String × List String) → List (String × List String))
    (user : adduser.User) (config : conn.Config) (userOU baseDN : String) :
    ldap.requests (user.addUser dir mapRange config userOU baseDN).1 ≤ 1 := by
  rcases GetLDAPConnection_cases dir config with ⟨e, h⟩ | ⟨e, h⟩ | h
  · simp [adduser.User.addUser, h, ldap.requests, ldap.Event.isRequest]
  · simp [adduser.User.addUser, h, ldap.requests, conn.boundLog, ldap.Event.isRequest]
  · simp only [adduser.User.addUser, h, deferClose, ldap.Close, ldap.Add, adduser_hash_eq]
    generalize dir.add _ _ = ares
    cases ares <;> simp [ldap.requests, conn.boundLog, ldap.Event.isRequest]

theorem deleteUser_requests (dir : ldap.Directory) (config : conn.Config) (username : String) :
    ldap.requests (deluser.deleteUser dir config username).1 ≤ 2 := by
  rcases GetLDAPConnection_cases dir config with ⟨e, h⟩ | ⟨e, h⟩ | h
  · simp [deluser.deleteUser, h, ldap.requests, ldap.Event.isRequest]
  · simp [deluser.deleteUser, h, ldap.requests, conn.boundLog, ldap.Event.isRequest]
  · simp only [deluser.deleteUser, h, deferClose, ldap.Search, ldap.Close, ldap.Del]
    generalize dir.search _ _ = sres
    rcases sres with err | ⟨⟨_ | ⟨e0, rest⟩⟩⟩
    · simp [ldap.requests, conn.boundLog, ldap.Event.isRequest]
    · simp [ldap.requests, conn.boundLog, ldap.Event.isRequest]
    · simp only []
      generalize dir.del _ _ = dres
      cases dres <;> simp [ldap.requests, conn.boundLog, ldap.Event.isRequest]

theorem ModifyUserPassword_requests (dir : ldap.Directory) (fc : modify.LDAPUserDNFetcher)
    (config : conn.Config) (username newPassword : String) :
    ldap.requests (modify.ModifyUserPassword dir fc.toUserDNFetcher config username
      newPassword).1 ≤ 2 := by
  rcases GetLDAPConnection_cases dir config with ⟨e, h⟩ | ⟨e, h⟩ | h
  · simp [modify.ModifyUserPassword, h, ldap.requests, ldap.Event.isRequest]
  · simp [modify.ModifyUserPassword, h, ldap.requests, conn.boundLog, ldap.Event.isRequest]
  · obtain ⟨r, hr⟩ := FetchUserDN_log fc dir (conn.boundLog config) username
    simp only [modify.ModifyUserPassword, h, deferClose, ldap.Close, ldap.Modify,
      modify.LDAPUserDNFetcher.toUserDNFetcher, hr, modify_hash_eq]
    cases r with
    | error err => simp [ldap.requests, conn.boundLog, ldap.Event.isRequest]
    | ok d =>
      simp only []
      generalize dir.modify _ _ = m
      cases m <;> simp [ldap.requests, conn.boundLog, ldap.Event.isRequest]

theorem AddUserattrName_requests (dir : ldap.Directory) (fc : modify.LDAPUserDNFetcher)
    (config : conn.Config) (username attrName : String) (values : List String) :
    ldap.requests (modify.AddUserattrName dir fc.toUserDNFetcher config username attrName
      values).1 ≤ 2 := by
  rcases GetLDAPConnection_cases dir config with ⟨e, h⟩ | ⟨e, h⟩ | h
  · simp [modify.AddUserattrName, h, ldap.requests, ldap.Event.isRequest]
  · simp [modify.AddUserattrName, h, ldap.requests, conn.boundLog, ldap.Event.isRequest]
  · obtain ⟨r, hr⟩ := FetchUserDN_log fc dir (conn.boundLog config) username
    simp only [modify.AddUserattrName, h, deferClose, ldap.Close, ldap.Modify,
      modify.LDAPUserDNFetcher.toUserDNFetcher, hr]
    cases r with
    | error err => simp [ldap.requests, conn.boundLog, ldap.Event.isRequest]
    | ok d =>
      simp only []
      generalize dir.modify _ _ = m
      cases m <;> simp [ldap.requests, conn.boundLog, ldap.Event.isRequest]

theorem AddUserToGroups_requests (dir : ldap.Directory) (fc : modify.LDAPUserDNFetcher)
    (config : conn.Config) (username : String) (groups : List String) :
    ldap.requests (modify.AddUserToGroups dir fc.toUserDNFetcher config username groups).1
      ≤ 1 + groups.length := by
  rcases GetLDAPConnection_cases dir config with ⟨e, h⟩ | ⟨e, h⟩ | h
  · simp [modify.AddUserToGroups, h, ldap.requests, ldap.Event.isRequest]
  · simp [modify.AddUserToGroups, h, ldap.requests, conn.boundLog, ldap.Event.isRequest]
  · obtain ⟨r, hr⟩ := FetchUserDN_log fc dir (conn.boundLog config) username
    simp only [modify.AddUserToGroups, h, deferClose, ldap.Close,
      modify.LDAPUserDNFetcher.toUserDNFetcher, hr]
    cases r with
    | error err => simp [ldap.requests, conn.boundLog, ldap.Event.isRequest]
    | ok d =>
      have hloop := addToGroupsLoop_requests dir config d groups
        (conn.boundLog config ++ [ldap.Event.Search ⟨fc.Config.LDAPBaseDN,
          ldap.ScopeWholeSubtree, ldap.NeverDerefAliases, 0, 0, false,
          "(uid=" ++ username ++ ")", ["dn"]⟩])
      simp only [ldap.requests, List.countP_append, conn.boundLog] at hloop ⊢
      simp [ldap.Event.isRequest] at hloop ⊢
      omega

theorem delUserFromGroups_requests (dir : ldap.Directory) (config : conn.Config)
    (username groupName : String) :
    ldap.requests (modify.delUserFromGroups dir config username groupName).1 ≤ 3 := by
  rcases GetLDAPConnection_cases dir config with ⟨e, h⟩ | ⟨e, h⟩ | h
  · simp [modify.delUserFromGroups, h, ldap.requests, ldap.Event.isRequest]
  · simp [modify.delUserFromGroups, h, ldap.requests, conn.boundLog, ldap.Event.isRequest]
  · simp only [modify.delUserFromGroups, h, deferClose, ldap.Search, ldap.Close, ldap.Modify]
    generalize dir.search _ _ = sres
    rcases sres with err | ⟨⟨_ | ⟨e0, rest⟩⟩⟩
    · simp [ldap.requests, conn.boundLog, ldap.Event.isRequest]
    · simp [ldap.requests, conn.boundLog, ldap.Event.isRequest]
    · simp only []
      generalize dir.search _ _ = gres
      rcases gres with err | ⟨⟨_ | ⟨g0, grest⟩⟩⟩
      · simp [ldap.requests, conn.boundLog, ldap.Event.isRequest]
      · simp [ldap.requests, conn.boundLog, ldap.Event.isRequest]
      · simp only []
        cases modify.userInGroupLoop e0.DN (g0.GetAttributeValues "member") with
        | false => simp [ldap.requests, conn.boundLog, ldap.Event.isRequest]
        | true =>
          simp only [Bool.not_true, Bool.false_eq_true, if_false]
          generalize dir.modify _ _ = m
          cases m <;> simp [ldap.requests, conn.boundLog, ldap.Event.isRequest]

theorem searchUser_requests (dir : ldap.Directory) (config : conn.Config) (username : String) :
    ldap.requests (search.searchUser dir config username).1 ≤ 1 := by
  rcases GetLDAPConnection_cases dir config with ⟨e, h⟩ | ⟨e, h⟩ | h
  · simp [search.searchUser, h, ldap.requests, ldap.Event.isRequest]
  · simp [search.searchUser, h, ldap.requests, conn.boundLog, ldap.Event.isRequest]
  · simp only [search.searchUser, h, deferClose, ldap.Search, ldap.Close]
    generalize dir.search _ _ = sres
    rcases sres with err | ⟨⟨_ | ⟨e0, rest⟩⟩⟩ <;>
      simp [ldap.requests, conn.boundLog, ldap.Event.isRequest]

theorem searchOU_requests (dir : ldap.Directory) (config : conn.Config) (ouname : String) :
    ldap.requests (search.searchOU dir config ouname).1 ≤ 1 := by
  rcases GetLDAPConnection_cases dir config with ⟨e, h⟩ | ⟨e, h⟩ | h
  · simp [search.searchOU, h, ldap.requests, ldap.Event.isRequest]
  · simp [search.searchOU, h, ldap.requests, conn.boundLog, ldap.Event.isRequest]
  · simp only [search.searchOU, h, deferClose, ldap.Search, ldap.Close]
    generalize dir.search _ _ = sres
    rcases sres with err | ⟨⟨_ | ⟨e0, rest⟩⟩⟩ <;>
      simp [ldap.requests, conn.boundLog, ldap.Event.isRequest]

/-- C8, as stated, fails: adding a user to two groups takes three round-trips
(one search, two modify requests), and removing a user from a group takes
three as well (two searches, one modify request). -/
theorem C8_three_round_trips_counterexample :
    ldap.requests (modify.AddUserToGroups (sample.directory [sample.alice] [] [])
        (modify.LDAPUserDNFetcher.toUserDNFetcher ⟨sample.config⟩) sample.config
        "alice" ["dev", "ops"]).1 = 3
    ∧ ldap.requests (modify.delUserFromGroups (sample.directory [sample.alice] [sample.dev] [])
        sample.config "alice" "dev").1 = 3
    ∧ ¬ (3 ≤ 2) := by
  decide

/-- C8 (amended): for every input and every behaviour of the directory, the
number of search, add, modify and delete requests issued after the bind is at
most 1 for `addUser`, `searchUser` and `searchOU`, at most 2 for `deleteUser`,
`ModifyUserPassword` and `AddUserattrName` (one lookup, one mutation), at most
3 for `delUserFromGroups` (two lookups, one mutation) and at most one plus the
number of groups for `AddUserToGroups` (one lookup, one mutation per group);
the three operations that take a fetcher are run with `LDAPUserDNFetcher`, the
one the program injects. -/
theorem C8_round_trips (dir : ldap.Directory) (fc : modify.LDAPUserDNFetcher)
    (mapRange : List (String × List String) → List (String × List String))
    (user : adduser.User) (config : conn.Config)
    (userOU baseDN username newPassword attrName groupName ouname : String)
    (values groups : List String) :
    ldap.requests (user.addUser dir mapRange config userOU baseDN).1 ≤ 1
    ∧ ldap.requests (deluser.deleteUser dir config username).1 ≤ 2
    ∧ ldap.requests (modify.ModifyUserPassword dir fc.toUserDNFetcher config username
        newPassword).1 ≤ 2
    ∧ ldap.requests (modify.AddUserattrName dir fc.toUserDNFetcher config username attrName
        values).1 ≤ 2
    ∧ ldap.requests (modify.AddUserToGroups dir fc.toUserDNFetcher config username groups).1
        ≤ 1 + groups.length
    ∧ ldap.requests (modify.delUserFromGroups dir config username groupName).1 ≤ 3
    ∧ ldap.requests (search.searchUser dir config username).1 ≤ 1
    ∧ ldap.requests (search.searchOU dir config ouname).1 ≤ 1 :=
  ⟨addUser_requests dir mapRange user config userOU baseDN,
   deleteUser_requests dir config username,
   ModifyUserPassword_requests dir fc config username newPassword,
   AddUserattrName_requests dir fc config username attrName values,
   AddUserToGroups_requests dir fc config username groups,
   delUserFromGroups_requests dir config username groupName,
   searchUser_requests dir config username,
   searchOU_requests dir config ouname⟩

/-! ## C9: closing the connection -/

theorem getLast_deferClose {α : Type} (r : ldap.Log × α) :
    (deferClose r).1.getLast? = some ldap.Event.Close := by
  simp [deferClose, ldap.Close]

/-- Once the bind has succeeded, every operation closes the connection before
it returns, whatever the directory answers afterwards: the last event of its
log is the close. -/
theorem bound_connection_is_closed (dir : ldap.Directory) (f : modify.UserDNFetcher)
    (mapRange : List (String × List String) → List (String × List String))
    (user : adduser.User) (config : conn.Config)
    (userOU baseDN username newPassword attrName groupName ouname : String)
    (values groups : List String)
    (hdial : dir.dial [] config.LDAPURL = none)
    (hbind : dir.bind [ldap.Event.DialURL config.LDAPURL] config.AdminDN config.AdminPass
      = none) :
    (user.addUser dir mapRange config userOU baseDN).1.getLast? = some ldap.Event.Close
    ∧ (deluser.deleteUser dir config username).1.getLast? = some ldap.Event.Close
    ∧ (modify.ModifyUserPassword dir f config username newPassword).1.getLast?
        = some ldap.Event.Close
    ∧ (modify.AddUserattrName dir f config username attrName values).1.getLast?
        = some ldap.Event.Close
    ∧ (modify.AddUserToGroups dir f config username groups).1.getLast?
        = some ldap.Event.Close
    ∧ (modify.delUserFromGroups dir config username groupName).1.getLast?
        = some ldap.Event.Close
    ∧ (search.searchUser dir config username).1.getLast? = some ldap.Event.Close
    ∧ (search.searchOU dir config ouname).1.getLast? = some ldap.Event.Close := by
  have hconn := GetLDAPConnection_ok dir config hdial hbind
  refine ⟨?_, ?_, ?_, ?_, ?_, ?_, ?_, ?_⟩
  · simp only [adduser.User.addUser, hconn, getLast_deferClose]
  · simp only [deluser.deleteUser, hconn, getLast_deferClose]
  · simp only [modify.ModifyUserPassword, hconn, getLast_deferClose]
  · simp only [modify.AddUserattrName, hconn, getLast_deferClose]
  · simp only [modify.AddUserToGroups, hconn, getLast_deferClose]
  · simp only [modify.delUserFromGroups, hconn, getLast_deferClose]
  · simp only [search.searchUser, hconn, getLast_deferClose]
  · simp only [search.searchOU, hconn, getLast_deferClose]

/-- C9 fails on the code: when the dial succeeds and the bind inside
`GetLDAPConnection` is rejected, `GetLDAPConnection` returns without closing
the connection it opened, and every operation returns the wrapped error at
once; the log of each operation is the dial and the bind, with no close. -/
theorem C9_bind_failure_leaves_connection_open (dir : ldap.Directory)
    (f : modify.UserDNFetcher)
    (mapRange : List (String × List String) → List (String × List String))
    (user : adduser.User) (config : conn.Config)
    (userOU baseDN username newPassword attrName groupName ouname e : String)
    (values groups : List String)
    (hdial : dir.dial [] config.LDAPURL = none)
    (hbind : dir.bind [ldap.Event.DialURL config.LDAPURL] config.AdminDN config.AdminPass
      = some e) :
    ldap.Event.DialURL config.LDAPURL ∈ conn.boundLog config
    ∧ ldap.Event.Close ∉ conn.boundLog config
    ∧ conn.GetLDAPConnection dir [] config = (conn.boundLog config, .error ("认证失败: " ++ e))
    ∧ user.addUser dir mapRange config userOU baseDN
      = (conn.boundLog config, some ("连接 LDAP 时出错: " ++ ("认证失败: " ++ e)))
    ∧ deluser.deleteUser dir config username
      = (conn.boundLog config, some ("连接 LDAP 时出错: " ++ ("认证失败: " ++ e)))
    ∧ modify.ModifyUserPassword dir f config username newPassword
      = (conn.boundLog config, some ("连接 LDAP 时出错: " ++ ("认证失败: " ++ e)))
    ∧ modify.AddUserattrName dir f config username attrName values
      = (conn.boundLog config, some ("连接 LDAP 时出错: " ++ ("认证失败: " ++ e)))
    ∧ modify.AddUserToGroups dir f config username groups
      = (conn.boundLog config, some ("连接 LDAP 时出错: " ++ ("认证失败: " ++ e)))
    ∧ modify.delUserFromGroups dir config username groupName
      = (conn.boundLog config, some ("连接 LDAP 时出错: " ++ ("认证失败: " ++ e)))
    ∧ search.searchUser dir config username
      = (conn.boundLog config, [], some ("连接 LDAP 时出错: " ++ ("认证失败: " ++ e)))
    ∧ search.searchOU dir config ouname
      = (conn.boundLog config, [], some ("连接 LDAP 时出错: " ++ ("认证失败: " ++ e))) := by
  have hconn := GetLDAPConnection_bind_error dir config e hdial hbind
  refine ⟨by simp [conn.boundLog], by simp [conn.boundLog], hconn, ?_, ?_, ?_, ?_, ?_, ?_, ?_, ?_⟩
  · simp only [adduser.User.addUser, hconn]
  · simp only [deluser.deleteUser, hconn]
  · simp only [modify.ModifyUserPassword, hconn]
  · simp only [modify.AddUserattrName, hconn]
  · simp only [modify.AddUserToGroups, hconn]
  · simp only [modify.delUserFromGroups, hconn]
  · simp only [search.searchUser, hconn]
  · simp only [search.searchOU, hconn]

/-- Witness of C9: a directory that rejects the bind; `deleteUser` leaves the
dial and the bind in the log and no close. -/
theorem C9_bind_failure_leaves_connection_open_witness :
    sample.rejectBind.bind [ldap.Event.DialURL sample.config.LDAPURL]
        sample.config.AdminDN sample.config.AdminPass = some "Invalid Credentials"
    ∧ deluser.deleteUser sample.rejectBind sample.config "alice"
      = ([ldap.Event.DialURL "ldap://localhost:389",
          ldap.Event.Bind "cn=admin,dc=example,dc=com" "secret"],
         some "连接 LDAP 时出错: 认证失败: Invalid Credentials") :=
  ⟨rfl,
   (C9_bind_failure_leaves_connection_open sample.rejectBind (sample.stubFetcher "")
      id ⟨"", "", "", "", ""⟩ sample.config "" "" "alice" "" "" "" "" "Invalid Credentials"
      [] [] rfl rfl).2.2.2.2.1⟩
